import Mathlib

/-!
# Verification of the limitwatch fetch/fallback/aggregation core

A shallow embedding, in Lean 4, of the parts of the `limitwatch` repository
that the specification describes: the SQLite-backed history store
(`src/limitwatch/storage.py`), the concurrent fetch orchestrator
(`src/limitwatch/cli.py`), the provider deadline discipline
(`src/limitwatch/providers/base.py`), the Chutes and OpenRouter providers
(`src/limitwatch/providers/chutes.py`, `openrouter.py`) and the Google
quota-request strategy fallback (`src/gemini_quota/providers/google.py`).

Python dictionaries with optional keys become structures with `Option`
fields; JSON numbers become `ℚ`; the SQLite table becomes a list of rows,
with `INSERT OR REPLACE` against the unique key
`(account_email, quota_name, hour_bucket)` modelled as erase-then-append;
HTTP traffic is an oracle (`ReqOutcome`) supplying, per endpoint, either a
raised library exception or a response with a status code and a body whose
JSON decoding may itself fail; Python exceptions become an explicit
`Except` channel.  Real wall-clock time is passed explicitly: each fetch
step receives the instant `now` at which it runs.
-/

namespace LimitWatch

/-! ## Python-value helpers -/

/-- Truthiness of an optional string, as Python `or` sees it:
`None` and the empty string are falsy. -/
def pyTruthyStr : Option String → Bool
  | none => false
  | some s => s ≠ ""

/-- Python `a.get(k) or dflt` for a string-valued key: the default is used
when the key is missing or its value is falsy (empty). -/
def pyOrStr (v : Option String) (dflt : String) : String :=
  match v with
  | none => dflt
  | some s => if s = "" then dflt else s

/-- Python `d.get(k1) or d.get(k2) or 0` for number-valued keys: `None` and
`0` are falsy, so the first non-zero present value wins, else `0`. -/
def pyOr2Q (a b : Option ℚ) : ℚ :=
  if a.getD 0 ≠ 0 then a.getD 0 else b.getD 0

/-- Python `q.get("chute_id") or q.get("id")` followed by `if not cid`:
the chained `or` of two optional strings, with a falsy (empty) final
result treated as absent. -/
def pyOrOptStr (a b : Option String) : Option String :=
  let c := match a with
    | none => b
    | some s => if s = "" then b else some s
  match c with
  | none => none
  | some s => if s = "" then none else some s

/-- Python `int()` truncation toward zero on a rational (`Int` division in
Lean 4 also truncates toward zero). -/
def pyInt (q : ℚ) : ℤ := q.num / (q.den : ℤ)

/-- Two-digit zero padding, as in `strftime` fields. -/
def pad2 (n : Nat) : String :=
  if n < 10 then "0" ++ toString n else toString n

/-- Four-digit zero padding for the year field. -/
def pad4 (n : Nat) : String :=
  if n < 10 then "000" ++ toString n
  else if n < 100 then "00" ++ toString n
  else if n < 1000 then "0" ++ toString n
  else toString n

/-- A UTC wall-clock instant as `datetime` exposes it to
`Storage.record_quotas` (sub-second detail is irrelevant to the store). -/
structure PyDateTime where
  year : Nat
  month : Nat
  day : Nat
  hour : Nat
  minute : Nat
  second : Nat
deriving DecidableEq, Repr

/-- `timestamp.strftime("%Y-%m-%d %H")` — the hour bucket string. -/
def PyDateTime.hourStr (t : PyDateTime) : String :=
  pad4 t.year ++ "-" ++ pad2 t.month ++ "-" ++ pad2 t.day ++ " " ++ pad2 t.hour

/-- `timestamp.isoformat()` for a UTC datetime. -/
def PyDateTime.isoformat (t : PyDateTime) : String :=
  pad4 t.year ++ "-" ++ pad2 t.month ++ "-" ++ pad2 t.day ++ "T" ++
    pad2 t.hour ++ ":" ++ pad2 t.minute ++ ":" ++ pad2 t.second ++ "+00:00"

/-- Two instants lie in the same calendar hour. -/
def SameCalendarHour (t t' : PyDateTime) : Prop :=
  t.year = t'.year ∧ t.month = t'.month ∧ t.day = t'.day ∧ t.hour = t'.hour

instance (t t' : PyDateTime) : Decidable (SameCalendarHour t t') := by
  unfold SameCalendarHour; infer_instance

theorem hourStr_eq_of_sameCalendarHour {t t' : PyDateTime}
    (h : SameCalendarHour t t') : t.hourStr = t'.hourStr := by
  obtain ⟨h1, h2, h3, h4⟩ := h
  simp [PyDateTime.hourStr, h1, h2, h3, h4]

/-! ## History store (`src/limitwatch/storage.py`)

The table `quota_snapshots` is a list of rows; the `UNIQUE(account_email,
quota_name, hour_bucket)` constraint together with `INSERT OR REPLACE`
makes each insert first delete any row with the same key and then append
the fresh row. -/

/-- A quota dictionary as `Storage.record_quotas` receives it.  Missing
keys are `none`; `is_error` is the truthiness of `quota.get("is_error")`. -/
structure QuotaDict where
  name : Option String
  display_name : Option String
  remaining_pct : Option ℚ
  used : Option ℚ
  limit : Option ℚ
  reset : Option String
  is_error : Bool
deriving DecidableEq, Repr

/-- One row of the `quota_snapshots` table (the auto-increment `id` and
`created_at` columns carry no information the claims touch). -/
structure SnapshotRow where
  account_email : String
  provider_type : String
  quota_name : String
  display_name : Option String
  remaining_pct : Option ℚ
  used : Option ℚ
  limit_val : Option ℚ
  reset_time : String
  timestamp : String
  hour_bucket : String
deriving DecidableEq, Repr

/-- The unique-constraint key of a row. -/
def rowKey (r : SnapshotRow) : String × String × String :=
  (r.account_email, r.quota_name, r.hour_bucket)

/-- The row built from one non-error quota dictionary, mirroring the VALUES
tuple of the INSERT in `record_quotas` (`quota.get("name", "unknown")`,
`str(quota.get("reset", ""))`, the isoformat timestamp and the hour
bucket). -/
def mkRow (account_email provider_type : String) (q : QuotaDict)
    (ts : PyDateTime) : SnapshotRow :=
  { account_email := account_email
    provider_type := provider_type
    quota_name := q.name.getD "unknown"
    display_name := q.display_name
    remaining_pct := q.remaining_pct
    used := q.used
    limit_val := q.limit
    reset_time := q.reset.getD ""
    timestamp := ts.isoformat
    hour_bucket := ts.hourStr }

/-- `INSERT OR REPLACE` on the unique key: delete every row whose key
matches the new row, then append the new row. -/
def upsert (table : List SnapshotRow) (r : SnapshotRow) : List SnapshotRow :=
  table.filter (fun x => decide (rowKey x ≠ rowKey r)) ++ [r]

/-- The loop body of `Storage.record_quotas`: skip an error quota, upsert a
non-error one and bump the insert counter. -/
def recordStep (account_email provider_type : String) (ts : PyDateTime)
    (acc : List SnapshotRow × Nat) (q : QuotaDict) : List SnapshotRow × Nat :=
  if q.is_error then acc
  else (upsert acc.1 (mkRow account_email provider_type q ts), acc.2 + 1)

/-- `Storage.record_quotas`: skip error quotas, upsert each remaining quota
as a row for the call timestamp, and count the upserts. -/
def recordQuotas (table : List SnapshotRow) (account_email provider_type : String)
    (quotas : List QuotaDict) (ts : PyDateTime) : List SnapshotRow × Nat :=
  quotas.foldl (recordStep account_email provider_type ts) (table, 0)

/-- The table invariant enforced by the UNIQUE constraint: at most one row
per `(account_email, quota_name, hour_bucket)` key. -/
def KeyUnique (table : List SnapshotRow) : Prop :=
  (table.map rowKey).Nodup

instance : DecidablePred KeyUnique := fun t => by unfold KeyUnique; infer_instance

theorem keyUnique_upsert {table : List SnapshotRow} (h : KeyUnique table)
    (r : SnapshotRow) : KeyUnique (upsert table r) := by
  unfold KeyUnique upsert at *
  rw [List.map_append]
  apply List.Nodup.append
  · exact h.sublist ((List.filter_sublist _).map rowKey)
  · simp
  · intro k hk hk'
    simp only [List.map_cons, List.map_nil, List.mem_singleton] at hk'
    subst hk'
    simp only [List.mem_map] at hk
    obtain ⟨x, hx, hkx⟩ := hk
    have := List.of_mem_filter hx
    simp only [decide_eq_true_eq] at this
    exact this hkx

theorem recordFold_table_indep (email pt : String) (ts : PyDateTime)
    (qs : List QuotaDict) (t : List SnapshotRow) (n m : Nat) :
    (qs.foldl (recordStep email pt ts) (t, n)).1 =
    (qs.foldl (recordStep email pt ts) (t, m)).1 := by
  induction qs generalizing t n m with
  | nil => rfl
  | cons q rest ih =>
      by_cases hq : q.is_error
      · simp only [List.foldl_cons, recordStep, hq, if_true]; exact ih t n m
      · simp only [List.foldl_cons, recordStep, hq, if_false]; exact ih _ _ _

theorem recordFold_count (email pt : String) (ts : PyDateTime)
    (qs : List QuotaDict) (t : List SnapshotRow) (n : Nat) :
    (qs.foldl (recordStep email pt ts) (t, n)).2 =
    n + (qs.filter (fun q => !q.is_error)).length := by
  induction qs generalizing t n with
  | nil => simp
  | cons q rest ih =>
      by_cases hq : q.is_error
      · simp [List.foldl_cons, recordStep, hq, ih]
      · have hstep : recordStep email pt ts (t, n) q =
            (upsert t (mkRow email pt q ts), n + 1) := by
          simp [recordStep, hq]
        have hq' : (!q.is_error) = true := by simp [hq]
        simp only [List.foldl_cons, hstep, ih, List.filter_cons, hq',
          if_true, List.length_cons]
        omega

theorem keyUnique_recordQuotas {table : List SnapshotRow} (h : KeyUnique table)
    (email pt : String) (quotas : List QuotaDict) (ts : PyDateTime) :
    KeyUnique (recordQuotas table email pt quotas ts).1 := by
  unfold recordQuotas
  induction quotas generalizing table with
  | nil => exact h
  | cons q rest ih =>
      simp only [List.foldl_cons]
      by_cases hq : q.is_error
      · simp only [recordStep, hq, if_true]
        exact ih h
      · have hstep : recordStep email pt ts (table, 0) q =
            (upsert table (mkRow email pt q ts), 1) := by
          simp [recordStep, hq]
        rw [hstep, recordFold_table_indep email pt ts rest _ 1 0]
        exact ih (keyUnique_upsert h _)

theorem filter_key_upsert_self (t : List SnapshotRow) (r : SnapshotRow) :
    (upsert t r).filter (fun x => decide (rowKey x = rowKey r)) = [r] := by
  unfold upsert
  rw [List.filter_append]
  have h1 : (t.filter (fun x => decide (rowKey x ≠ rowKey r))).filter
      (fun x => decide (rowKey x = rowKey r)) = [] := by
    rw [List.filter_filter]
    apply List.filter_eq_nil_iff.mpr
    intro a _
    by_cases h : rowKey a = rowKey r <;> simp [h]
  rw [h1]
  simp

theorem length_upsert_of_one (t : List SnapshotRow) (r : SnapshotRow)
    (h : (t.filter (fun x => decide (rowKey x = rowKey r))).length = 1) :
    (upsert t r).length = t.length := by
  unfold upsert
  rw [List.length_append]
  have := List.length_eq_length_filter_add (l := t)
    (fun x => decide (rowKey x = rowKey r))
  have hnot : (t.filter fun x => !(decide (rowKey x = rowKey r))) =
      (t.filter fun x => decide (rowKey x ≠ rowKey r)) := by
    apply List.filter_congr
    intro a _
    by_cases hx : rowKey a = rowKey r <;> simp [hx]
  rw [hnot] at this
  simp only [List.length_singleton]
  omega

theorem recordQuotas_single (T : List SnapshotRow) (email pt : String)
    (q : QuotaDict) (ts : PyDateTime) (hq : q.is_error = false) :
    recordQuotas T email pt [q] ts = (upsert T (mkRow email pt q ts), 1) := by
  simp [recordQuotas, recordStep, hq]

theorem rowKey_mkRow_eq (email pt pt' : String) (q q' : QuotaDict)
    (ts ts' : PyDateTime) (hhour : SameCalendarHour ts ts')
    (hname : q.name = q'.name) :
    rowKey (mkRow email pt q ts) = rowKey (mkRow email pt' q' ts') := by
  simp [rowKey, mkRow, hname, hourStr_eq_of_sameCalendarHour hhour]

/-! ## Aggregation (`Storage.get_aggregation`)

The SQL query filters rows by the optional bounds and identity filters,
groups by `(account_email, provider_type, quota_name)`, and per group takes
MIN/MAX/AVG of `remaining_pct` and `used` (SQL aggregates ignore NULLs),
COUNT(*) and MIN/MAX of the timestamp, ordered by account_email then
quota_name. -/

/-- The GROUP BY key of `get_aggregation`. -/
def aggKey (r : SnapshotRow) : String × String × String :=
  (r.account_email, r.provider_type, r.quota_name)

/-- The WHERE clause of both `query_history` and `get_aggregation` time
bounds: `timestamp >= since` and `timestamp <= until`, inclusive, on the
stored ISO text (SQLite TEXT comparison). -/
def tsFilter (since until_ : Option String) (r : SnapshotRow) : Bool :=
  (match since with
    | none => true
    | some s => decide (s ≤ r.timestamp)) &&
  (match until_ with
    | none => true
    | some u => decide (r.timestamp ≤ u))

/-- The full WHERE clause of `get_aggregation`: time bounds, optional
account filter and optional provider filter, all conjoined. -/
def aggRowFilter (since until_ accF ptF : Option String) (r : SnapshotRow) : Bool :=
  tsFilter since until_ r &&
  (match accF with
    | none => true
    | some a => decide (r.account_email = a)) &&
  (match ptF with
    | none => true
    | some p => decide (r.provider_type = p))

/-- SQL MIN over a nullable numeric column: NULLs are ignored, NULL when no
value remains. -/
def sqlMinQ (vals : List (Option ℚ)) : Option ℚ :=
  match vals.filterMap id with
  | [] => none
  | v :: rest => some (rest.foldl min v)

/-- SQL MAX over a nullable numeric column. -/
def sqlMaxQ (vals : List (Option ℚ)) : Option ℚ :=
  match vals.filterMap id with
  | [] => none
  | v :: rest => some (rest.foldl max v)

/-- SQL AVG over a nullable numeric column: the sum of the non-NULL values
divided by their count. -/
def sqlAvgQ (vals : List (Option ℚ)) : Option ℚ :=
  match vals.filterMap id with
  | [] => none
  | v :: rest => some ((rest.foldl (· + ·) v) / ((v :: rest).length : ℚ))

/-- SQL MIN over the NOT NULL timestamp column. -/
def sqlMinStr (vals : List String) : Option String :=
  match vals with
  | [] => none
  | v :: rest => some (rest.foldl min v)

/-- SQL MAX over the NOT NULL timestamp column. -/
def sqlMaxStr (vals : List String) : Option String :=
  match vals with
  | [] => none
  | v :: rest => some (rest.foldl max v)

/-- One row of the `get_aggregation` result set. -/
structure AggRow where
  account_email : String
  provider_type : String
  quota_name : String
  display_name : Option String
  min_remaining : Option ℚ
  max_remaining : Option ℚ
  avg_remaining : Option ℚ
  min_used : Option ℚ
  max_used : Option ℚ
  avg_used : Option ℚ
  data_points : Nat
  first_seen : Option String
  last_seen : Option String
deriving DecidableEq, Repr

/-- The aggregate row for one group (`display_name` is a bare column under
GROUP BY, so SQLite surfaces the value of one row of the group; the model
takes the first). -/
def aggOfGroup (k : String × String × String) (g : List SnapshotRow) : AggRow :=
  { account_email := k.1
    provider_type := k.2.1
    quota_name := k.2.2
    display_name := (g.head?.map SnapshotRow.display_name).join
    min_remaining := sqlMinQ (g.map SnapshotRow.remaining_pct)
    max_remaining := sqlMaxQ (g.map SnapshotRow.remaining_pct)
    avg_remaining := sqlAvgQ (g.map SnapshotRow.remaining_pct)
    min_used := sqlMinQ (g.map SnapshotRow.used)
    max_used := sqlMaxQ (g.map SnapshotRow.used)
    avg_used := sqlAvgQ (g.map SnapshotRow.used)
    data_points := g.length
    first_seen := sqlMinStr (g.map SnapshotRow.timestamp)
    last_seen := sqlMaxStr (g.map SnapshotRow.timestamp) }

/-- `ORDER BY account_email, quota_name` on the result set (lexicographic,
as SQL orders by the listed columns in turn). -/
def aggOrder (a b : AggRow) : Prop :=
  a.account_email < b.account_email ∨
    (a.account_email = b.account_email ∧ a.quota_name ≤ b.quota_name)

instance : DecidableRel aggOrder := fun a b => by unfold aggOrder; infer_instance

/-- `Storage.get_aggregation`: filter, group by `aggKey` (one output row
per distinct key of the filtered rows), aggregate per group, order for
display. -/
def getAggregation (table : List SnapshotRow)
    (since until_ accF ptF : Option String) : List AggRow :=
  let rows := table.filter (aggRowFilter since until_ accF ptF)
  let keys := (rows.map aggKey).dedup
  (keys.map (fun k => aggOfGroup k
    (rows.filter (fun r => decide (aggKey r = k))))).insertionSort aggOrder

theorem foldl_min_le {α : Type} [LinearOrder α] (rest : List α) (v : α) :
    ∀ x ∈ v :: rest, rest.foldl min v ≤ x := by
  induction rest generalizing v with
  | nil => intro x hx; simp at hx; simp [hx]
  | cons w rest ih =>
      intro x hx
      simp only [List.mem_cons] at hx
      have hbase : List.foldl min (min v w) rest ≤ min v w :=
        ih (min v w) (min v w) (List.mem_cons_self _ _)
      rcases hx with rfl | rfl | hx
      · exact le_trans hbase (min_le_left _ _)
      · exact le_trans hbase (min_le_right _ _)
      · exact ih (min v w) x (List.mem_cons_of_mem _ hx)

theorem foldl_min_mem {α : Type} [LinearOrder α] (rest : List α) (v : α) :
    rest.foldl min v ∈ v :: rest := by
  induction rest generalizing v with
  | nil => simp
  | cons w rest ih =>
      simp only [List.foldl_cons]
      rcases List.mem_cons.mp (ih (min v w)) with h1 | h1
      · rcases min_choice v w with hm | hm
        · exact List.mem_cons.mpr (Or.inl (h1.trans hm))
        · exact List.mem_cons_of_mem _ (List.mem_cons.mpr (Or.inl (h1.trans hm)))
      · exact List.mem_cons_of_mem _ (List.mem_cons_of_mem _ h1)

theorem foldl_max_le {α : Type} [LinearOrder α] (rest : List α) (v : α) :
    ∀ x ∈ v :: rest, x ≤ rest.foldl max v := by
  induction rest generalizing v with
  | nil => intro x hx; simp at hx; simp [hx]
  | cons w rest ih =>
      intro x hx
      simp only [List.mem_cons] at hx
      have hbase : max v w ≤ List.foldl max (max v w) rest :=
        ih (max v w) (max v w) (List.mem_cons_self _ _)
      rcases hx with rfl | rfl | hx
      · exact le_trans (le_max_left _ _) hbase
      · exact le_trans (le_max_right _ _) hbase
      · exact ih (max v w) x (List.mem_cons_of_mem _ hx)

theorem foldl_max_mem {α : Type} [LinearOrder α] (rest : List α) (v : α) :
    rest.foldl max v ∈ v :: rest := by
  induction rest generalizing v with
  | nil => simp
  | cons w rest ih =>
      simp only [List.foldl_cons]
      rcases List.mem_cons.mp (ih (max v w)) with h1 | h1
      · rcases max_choice v w with hm | hm
        · exact List.mem_cons.mpr (Or.inl (h1.trans hm))
        · exact List.mem_cons_of_mem _ (List.mem_cons.mpr (Or.inl (h1.trans hm)))
      · exact List.mem_cons_of_mem _ (List.mem_cons_of_mem _ h1)

theorem foldl_add_eq_sum (rest : List ℚ) (v : ℚ) :
    rest.foldl (· + ·) v = v + rest.sum := by
  induction rest generalizing v with
  | nil => simp
  | cons w rest ih => simp [List.foldl_cons, ih, add_assoc]

theorem sqlMinQ_spec (vals : List (Option ℚ)) :
    (∀ x ∈ vals.filterMap id, ∃ m, sqlMinQ vals = some m ∧ m ≤ x) ∧
    (sqlMinQ vals = none ∨ ∃ m ∈ vals.filterMap id, sqlMinQ vals = some m) := by
  unfold sqlMinQ
  cases h : vals.filterMap id with
  | nil => simp
  | cons v rest =>
      constructor
      · intro x hx
        exact ⟨rest.foldl min v, rfl, foldl_min_le rest v x (h ▸ hx)⟩
      · right
        exact ⟨rest.foldl min v, h ▸ foldl_min_mem rest v, rfl⟩

theorem sqlMaxQ_spec (vals : List (Option ℚ)) :
    (∀ x ∈ vals.filterMap id, ∃ m, sqlMaxQ vals = some m ∧ x ≤ m) ∧
    (sqlMaxQ vals = none ∨ ∃ m ∈ vals.filterMap id, sqlMaxQ vals = some m) := by
  unfold sqlMaxQ
  cases h : vals.filterMap id with
  | nil => simp
  | cons v rest =>
      constructor
      · intro x hx
        exact ⟨rest.foldl max v, rfl, foldl_max_le rest v x (h ▸ hx)⟩
      · right
        exact ⟨rest.foldl max v, h ▸ foldl_max_mem rest v, rfl⟩

theorem sqlAvgQ_spec (vals : List (Option ℚ)) (h : vals.filterMap id ≠ []) :
    sqlAvgQ vals =
      some ((vals.filterMap id).sum / ((vals.filterMap id).length : ℚ)) := by
  unfold sqlAvgQ
  cases hv : vals.filterMap id with
  | nil => exact absurd hv h
  | cons v rest => simp [foldl_add_eq_sum]

theorem getAggregation_mem_iff (table : List SnapshotRow)
    (since until_ accF ptF : Option String) (a : AggRow) :
    a ∈ getAggregation table since until_ accF ptF ↔
      ∃ k ∈ ((table.filter (aggRowFilter since until_ accF ptF)).map aggKey).dedup,
        a = aggOfGroup k ((table.filter (aggRowFilter since until_ accF ptF)).filter
          (fun r => decide (aggKey r = k))) := by
  unfold getAggregation
  rw [(List.perm_insertionSort aggOrder _).mem_iff]
  simp only [List.mem_map]
  constructor
  · rintro ⟨k, hk, rfl⟩; exact ⟨k, hk, rfl⟩
  · rintro ⟨k, hk, rfl⟩; exact ⟨k, hk, rfl⟩

theorem recordFold_mem (email pt : String) (ts : PyDateTime)
    (qs : List QuotaDict) :
    ∀ (t : List SnapshotRow) (n : Nat) (r : SnapshotRow),
      r ∈ (qs.foldl (recordStep email pt ts) (t, n)).1 →
      r ∈ t ∨ ∃ q ∈ qs, q.is_error = false ∧ r = mkRow email pt q ts := by
  induction qs with
  | nil => intro t n r hr; exact Or.inl hr
  | cons q rest ih =>
      intro t n r hr
      by_cases hq : q.is_error
      · simp only [List.foldl_cons, recordStep, hq, if_true] at hr
        rcases ih t n r hr with h | ⟨q0, hq0, hq0e, hq0r⟩
        · exact Or.inl h
        · exact Or.inr ⟨q0, List.mem_cons_of_mem _ hq0, hq0e, hq0r⟩
      · have hstep : recordStep email pt ts (t, n) q =
            (upsert t (mkRow email pt q ts), n + 1) := by
          simp [recordStep, hq]
        simp only [List.foldl_cons, hstep] at hr
        rcases ih _ _ r hr with h | ⟨q0, hq0, hq0e, hq0r⟩
        · unfold upsert at h
          rcases List.mem_append.mp h with h1 | h1
          · exact Or.inl (List.mem_of_mem_filter h1)
          · refine Or.inr ⟨q, List.mem_cons_self _ _, ?_, ?_⟩
            · simpa using hq
            · simpa using h1
        · exact Or.inr ⟨q0, List.mem_cons_of_mem _ hq0, hq0e, hq0r⟩

theorem upsert_replace_pack (T1 : List SnapshotRow) (r1 r2 : SnapshotRow)
    (hkey : rowKey r1 = rowKey r2)
    (hfilter : T1.filter (fun x => decide (rowKey x = rowKey r1)) = [r1]) :
    (upsert T1 r2).filter (fun x => decide (rowKey x = rowKey r2)) = [r2] ∧
    (upsert T1 r2).length = T1.length := by
  refine ⟨filter_key_upsert_self T1 r2, ?_⟩
  apply length_upsert_of_one
  have hfun : (fun x => decide (rowKey x = rowKey r2)) =
      (fun x => decide (rowKey x = rowKey r1)) := by
    funext x; rw [hkey]
  rw [hfun, hfilter]
  rfl

/-- C1: recording a second snapshot for the same `(account_email,
quota_name)` with a timestamp in the same calendar hour replaces the prior
row: key-uniqueness is preserved, the table afterwards holds exactly one
row for that key carrying the values of the latest record, and the table
does not grow. -/
theorem hist_hour_bucket_dedup (T : List SnapshotRow) (email pt : String)
    (q q' : QuotaDict) (ts ts' : PyDateTime)
    (hT : KeyUnique T) (hhour : SameCalendarHour ts ts')
    (hq : q.is_error = false) (hq' : q'.is_error = false)
    (hname : q.name = q'.name) :
    KeyUnique (recordQuotas T email pt [q] ts).1 ∧
    KeyUnique (recordQuotas (recordQuotas T email pt [q] ts).1 email pt [q'] ts').1 ∧
    ((recordQuotas (recordQuotas T email pt [q] ts).1 email pt [q'] ts').1).filter
        (fun r => decide (rowKey r = rowKey (mkRow email pt q' ts'))) =
      [mkRow email pt q' ts'] ∧
    ((recordQuotas (recordQuotas T email pt [q] ts).1 email pt [q'] ts').1).length =
      ((recordQuotas T email pt [q] ts).1).length := by
  rw [recordQuotas_single T email pt q ts hq,
    recordQuotas_single _ email pt q' ts' hq']
  have hkey : rowKey (mkRow email pt q ts) = rowKey (mkRow email pt q' ts') :=
    rowKey_mkRow_eq email pt pt q q' ts ts' hhour hname
  have h1 : KeyUnique (upsert T (mkRow email pt q ts)) := keyUnique_upsert hT _
  have hpack := upsert_replace_pack (upsert T (mkRow email pt q ts))
    (mkRow email pt q ts) (mkRow email pt q' ts') hkey
    (filter_key_upsert_self T (mkRow email pt q ts))
  exact ⟨h1, keyUnique_upsert h1 _, hpack.1, hpack.2⟩

theorem hist_hour_bucket_dedup_witness :
    KeyUnique ([] : List SnapshotRow) ∧
    SameCalendarHour ⟨2026, 10, 12, 9, 0, 0⟩ ⟨2026, 10, 12, 9, 30, 0⟩ ∧
    ((recordQuotas
        (recordQuotas [] "a@x.com" "google"
          [⟨some "gemini", some "Gemini", some 40, none, none, none, false⟩]
          ⟨2026, 10, 12, 9, 0, 0⟩).1
        "a@x.com" "google"
        [⟨some "gemini", some "Gemini", some 35, none, none, none, false⟩]
        ⟨2026, 10, 12, 9, 30, 0⟩).1).length =
      ((recordQuotas [] "a@x.com" "google"
        [⟨some "gemini", some "Gemini", some 40, none, none, none, false⟩]
        ⟨2026, 10, 12, 9, 0, 0⟩).1).length := by
  refine ⟨by decide, by decide, ?_⟩
  exact (hist_hour_bucket_dedup [] "a@x.com" "google"
    ⟨some "gemini", some "Gemini", some 40, none, none, none, false⟩
    ⟨some "gemini", some "Gemini", some 35, none, none, none, false⟩
    ⟨2026, 10, 12, 9, 0, 0⟩ ⟨2026, 10, 12, 9, 30, 0⟩
    (by decide) (by decide) (by decide) (by decide) (by decide)).2.2.2

/-- C10: the unique key omits `provider_type` — two same-hour snapshots for
the same `(account_email, quota_name)` but different provider types replace
one another: afterwards exactly one row holds that key, its
`provider_type` and value columns are those of the later record, and the
table did not grow. -/
theorem hist_key_omits_provider (T : List SnapshotRow) (email pt pt' : String)
    (q q' : QuotaDict) (ts ts' : PyDateTime)
    (hT : KeyUnique T) (hpt : pt ≠ pt') (hhour : SameCalendarHour ts ts')
    (hq : q.is_error = false) (hq' : q'.is_error = false)
    (hname : q.name = q'.name) :
    ((recordQuotas (recordQuotas T email pt [q] ts).1 email pt' [q'] ts').1).filter
        (fun r => decide (rowKey r = rowKey (mkRow email pt' q' ts'))) =
      [mkRow email pt' q' ts'] ∧
    (mkRow email pt' q' ts').provider_type = pt' ∧
    ((recordQuotas (recordQuotas T email pt [q] ts).1 email pt' [q'] ts').1).length =
      ((recordQuotas T email pt [q] ts).1).length := by
  rw [recordQuotas_single T email pt q ts hq,
    recordQuotas_single _ email pt' q' ts' hq']
  have hkey : rowKey (mkRow email pt q ts) = rowKey (mkRow email pt' q' ts') :=
    rowKey_mkRow_eq email pt pt' q q' ts ts' hhour hname
  have hpack := upsert_replace_pack (upsert T (mkRow email pt q ts))
    (mkRow email pt q ts) (mkRow email pt' q' ts') hkey
    (filter_key_upsert_self T (mkRow email pt q ts))
  exact ⟨hpack.1, rfl, hpack.2⟩

theorem hist_key_omits_provider_witness :
    ((recordQuotas
        (recordQuotas [] "a@x.com" "google"
          [⟨some "credits", none, some 10, none, none, none, false⟩]
          ⟨2026, 3, 4, 5, 10, 0⟩).1
        "a@x.com" "chutes"
        [⟨some "credits", none, some 20, none, none, none, false⟩]
        ⟨2026, 3, 4, 5, 50, 0⟩).1).length =
      ((recordQuotas [] "a@x.com" "google"
        [⟨some "credits", none, some 10, none, none, none, false⟩]
        ⟨2026, 3, 4, 5, 10, 0⟩).1).length :=
  (hist_key_omits_provider [] "a@x.com" "google" "chutes"
    ⟨some "credits", none, some 10, none, none, none, false⟩
    ⟨some "credits", none, some 20, none, none, none, false⟩
    ⟨2026, 3, 4, 5, 10, 0⟩ ⟨2026, 3, 4, 5, 50, 0⟩
    (by decide) (by decide) (by decide) (by decide) (by decide) (by decide)).2.2

/-- C7: `record_quotas` never writes an error record — every row of the
resulting table is either an old row or derives from a non-error quota —
and it returns the number of non-error records upserted; in particular one
error record plus one valid record yields count 1. -/
theorem record_skips_errors_counts (T : List SnapshotRow) (email pt : String)
    (quotas : List QuotaDict) (ts : PyDateTime) :
    (recordQuotas T email pt quotas ts).2 =
      (quotas.filter (fun q => !q.is_error)).length ∧
    (∀ r ∈ (recordQuotas T email pt quotas ts).1,
      r ∈ T ∨ ∃ q ∈ quotas, q.is_error = false ∧ r = mkRow email pt q ts) ∧
    (recordQuotas [] "user@example.com" "chutes"
      [⟨some "bad", none, none, none, none, none, true⟩,
       ⟨some "good", none, some 50, none, none, none, false⟩]
      ⟨2026, 1, 2, 3, 4, 5⟩).2 = 1 := by
  refine ⟨?_, ?_, by decide⟩
  · unfold recordQuotas
    rw [recordFold_count email pt ts quotas T 0]
    simp
  · intro r hr
    exact recordFold_mem email pt ts quotas T 0 r hr

theorem record_skips_errors_counts_witness :
    (recordQuotas [⟨"e", "p", "n", none, none, none, none, "", "t", "h"⟩]
        "user@example.com" "chutes"
        [⟨some "bad", none, none, none, none, none, true⟩,
         ⟨some "good", none, some 50, none, none, none, false⟩]
        ⟨2026, 1, 2, 3, 4, 5⟩).2 = 1 ∧
    ((⟨"e", "p", "n", none, none, none, none, "", "t", "h"⟩ : SnapshotRow) ∈
        ([⟨"e", "p", "n", none, none, none, none, "", "t", "h"⟩] :
          List SnapshotRow) ∨
      ∃ q ∈ ([⟨some "bad", none, none, none, none, none, true⟩,
              ⟨some "good", none, some 50, none, none, none, false⟩] :
          List QuotaDict), q.is_error = false ∧
        (⟨"e", "p", "n", none, none, none, none, "", "t", "h"⟩ : SnapshotRow) =
          mkRow "user@example.com" "chutes" q ⟨2026, 1, 2, 3, 4, 5⟩) := by
  constructor
  · have h := (record_skips_errors_counts
      [⟨"e", "p", "n", none, none, none, none, "", "t", "h"⟩]
      "user@example.com" "chutes"
      [⟨some "bad", none, none, none, none, none, true⟩,
       ⟨some "good", none, some 50, none, none, none, false⟩]
      ⟨2026, 1, 2, 3, 4, 5⟩).1
    rw [h]; decide
  · exact (record_skips_errors_counts
      [⟨"e", "p", "n", none, none, none, none, "", "t", "h"⟩]
      "user@example.com" "chutes"
      [⟨some "bad", none, none, none, none, none, true⟩,
       ⟨some "good", none, some 50, none, none, none, false⟩]
      ⟨2026, 1, 2, 3, 4, 5⟩).2.1
      ⟨"e", "p", "n", none, none, none, none, "", "t", "h"⟩ (by decide)

/-- Five same-key snapshots whose `remaining_pct` values are
50, 60, 70, 80, 90, exercising the aggregation window of the spec. -/
def c8Rows : List SnapshotRow :=
  [⟨"u@x", "google", "gemini", some "G", some 50, none, none, "", "t1", "h1"⟩,
   ⟨"u@x", "google", "gemini", some "G", some 60, none, none, "", "t2", "h2"⟩,
   ⟨"u@x", "google", "gemini", some "G", some 70, none, none, "", "t3", "h3"⟩,
   ⟨"u@x", "google", "gemini", some "G", some 80, none, none, "", "t4", "h4"⟩,
   ⟨"u@x", "google", "gemini", some "G", some 90, none, none, "", "t5", "h5"⟩]

/-- C8: `get_aggregation` groups the filtered snapshots by
`(account_email, provider_type, quota_name)` — one output row per distinct
key — and per group reports the attained minimum and maximum and the mean
of the non-null `remaining_pct` and `used` values plus the group size as
`data_points`; on a window holding exactly `remaining_pct` values
50, 60, 70, 80, 90 for one quota it reports min 50, max 90, avg 70 and
5 data points. -/
theorem aggregation_stats_correct :
    (∀ (table : List SnapshotRow) (since until_ accF ptF : Option String),
      ((getAggregation table since until_ accF ptF).map
          (fun a => (a.account_email, a.provider_type, a.quota_name))).Perm
        (((table.filter (aggRowFilter since until_ accF ptF)).map aggKey).dedup)) ∧
    (∀ (table : List SnapshotRow) (since until_ accF ptF : Option String)
      (a : AggRow), a ∈ getAggregation table since until_ accF ptF →
      a.data_points = ((table.filter (aggRowFilter since until_ accF ptF)).filter
        (fun r => decide (aggKey r = (a.account_email, a.provider_type,
          a.quota_name)))).length ∧
      (∀ x ∈ (((table.filter (aggRowFilter since until_ accF ptF)).filter
          (fun r => decide (aggKey r = (a.account_email, a.provider_type,
            a.quota_name)))).map SnapshotRow.remaining_pct).filterMap id,
        (∃ m, a.min_remaining = some m ∧ m ≤ x) ∧
        (∃ m, a.max_remaining = some m ∧ x ≤ m)) ∧
      (a.min_remaining = none ∨
        ∃ m ∈ (((table.filter (aggRowFilter since until_ accF ptF)).filter
          (fun r => decide (aggKey r = (a.account_email, a.provider_type,
            a.quota_name)))).map SnapshotRow.remaining_pct).filterMap id,
          a.min_remaining = some m) ∧
      (a.max_remaining = none ∨
        ∃ m ∈ (((table.filter (aggRowFilter since until_ accF ptF)).filter
          (fun r => decide (aggKey r = (a.account_email, a.provider_type,
            a.quota_name)))).map SnapshotRow.remaining_pct).filterMap id,
          a.max_remaining = some m) ∧
      ((((table.filter (aggRowFilter since until_ accF ptF)).filter
          (fun r => decide (aggKey r = (a.account_email, a.provider_type,
            a.quota_name)))).map SnapshotRow.remaining_pct).filterMap id ≠ [] →
        a.avg_remaining = some (((((table.filter (aggRowFilter since until_
          accF ptF)).filter (fun r => decide (aggKey r = (a.account_email,
            a.provider_type, a.quota_name)))).map
              SnapshotRow.remaining_pct).filterMap id).sum /
          (((((table.filter (aggRowFilter since until_ accF ptF)).filter
            (fun r => decide (aggKey r = (a.account_email, a.provider_type,
              a.quota_name)))).map SnapshotRow.remaining_pct).filterMap
                id).length : ℚ))) ∧
      ((((table.filter (aggRowFilter since until_ accF ptF)).filter
          (fun r => decide (aggKey r = (a.account_email, a.provider_type,
            a.quota_name)))).map SnapshotRow.used).filterMap id ≠ [] →
        a.avg_used = some (((((table.filter (aggRowFilter since until_
          accF ptF)).filter (fun r => decide (aggKey r = (a.account_email,
            a.provider_type, a.quota_name)))).map
              SnapshotRow.used).filterMap id).sum /
          (((((table.filter (aggRowFilter since until_ accF ptF)).filter
            (fun r => decide (aggKey r = (a.account_email, a.provider_type,
              a.quota_name)))).map SnapshotRow.used).filterMap
                id).length : ℚ)))) ∧
    getAggregation c8Rows none none none none =
      [⟨"u@x", "google", "gemini", some "G", some 50, some 90, some 70,
        none, none, none, 5, some "t1", some "t5"⟩] := by
  refine ⟨?_, ?_, ?_⟩
  · intro table since until_ accF ptF
    unfold getAggregation
    refine ((List.perm_insertionSort aggOrder _).map _).trans ?_
    rw [List.map_map]
    have hmap : ∀ k ∈ ((table.filter (aggRowFilter since until_ accF
        ptF)).map aggKey).dedup,
        ((fun a => (a.account_email, a.provider_type, a.quota_name)) ∘
          (fun k => aggOfGroup k ((table.filter (aggRowFilter since until_
            accF ptF)).filter (fun r => decide (aggKey r = k))))) k = k := by
      rintro ⟨k1, k2, k3⟩ _
      rfl
    rw [List.map_congr_left hmap]
    simp
  · intro table since until_ accF ptF a ha
    obtain ⟨k, hk, rfl⟩ :=
      (getAggregation_mem_iff table since until_ accF ptF _).mp ha
    obtain ⟨k1, k2, k3⟩ := k
    refine ⟨rfl, ?_, ?_, ?_, ?_, ?_⟩
    · intro x hx
      exact ⟨(sqlMinQ_spec _).1 x hx, (sqlMaxQ_spec _).1 x hx⟩
    · exact (sqlMinQ_spec _).2
    · exact (sqlMaxQ_spec _).2
    · intro hne
      exact sqlAvgQ_spec _ hne
    · intro hne
      exact sqlAvgQ_spec _ hne
  · have hrows : c8Rows.filter (aggRowFilter none none none none) = c8Rows := by
      decide
    have hkeys : (c8Rows.map aggKey).dedup = [("u@x", "google", "gemini")] := by
      decide
    have hgroup : c8Rows.filter
        (fun r => decide (aggKey r = ("u@x", "google", "gemini"))) = c8Rows := by
      decide
    unfold getAggregation
    dsimp only
    rw [hrows, hkeys, List.map_cons, List.map_nil, hgroup]
    have hfm : ((c8Rows.map SnapshotRow.remaining_pct).filterMap id) =
        [(50 : ℚ), 60, 70, 80, 90] := by decide
    have havg : sqlAvgQ (c8Rows.map SnapshotRow.remaining_pct) = some 70 := by
      unfold sqlAvgQ
      rw [hfm]
      dsimp only
      norm_num [List.foldl]
    have hmin : sqlMinQ (c8Rows.map SnapshotRow.remaining_pct) = some 50 := by
      decide
    have hmax : sqlMaxQ (c8Rows.map SnapshotRow.remaining_pct) = some 90 := by
      decide
    have hminU : sqlMinQ (c8Rows.map SnapshotRow.used) = none := by decide
    have hmaxU : sqlMaxQ (c8Rows.map SnapshotRow.used) = none := by decide
    have havgU : sqlAvgQ (c8Rows.map SnapshotRow.used) = none := by decide
    have hts1 : List.foldl min ("t1" : String) ["t2", "t3", "t4", "t5"] =
        "t1" := by
      have e2 : min ("t1" : String) "t2" = "t1" := min_eq_left (by simp; decide)
      have e3 : min ("t1" : String) "t3" = "t1" := min_eq_left (by simp; decide)
      have e4 : min ("t1" : String) "t4" = "t1" := min_eq_left (by simp; decide)
      have e5 : min ("t1" : String) "t5" = "t1" := min_eq_left (by simp; decide)
      simp [List.foldl, e2, e3, e4, e5]
    have hts5 : List.foldl max ("t1" : String) ["t2", "t3", "t4", "t5"] =
        "t5" := by
      have e2 : max ("t1" : String) "t2" = "t2" := max_eq_right (by simp; decide)
      have e3 : max ("t2" : String) "t3" = "t3" := max_eq_right (by simp; decide)
      have e4 : max ("t3" : String) "t4" = "t4" := max_eq_right (by simp; decide)
      have e5 : max ("t4" : String) "t5" = "t5" := max_eq_right (by simp; decide)
      simp [List.foldl, e2, e3, e4, e5]
    have hfs : sqlMinStr (c8Rows.map SnapshotRow.timestamp) = some "t1" := by
      unfold sqlMinStr
      simp only [c8Rows, List.map_cons, List.map_nil]
      rw [hts1]
    have hls : sqlMaxStr (c8Rows.map SnapshotRow.timestamp) = some "t5" := by
      unfold sqlMaxStr
      simp only [c8Rows, List.map_cons, List.map_nil]
      rw [hts5]
    unfold aggOfGroup
    rw [hmin, hmax, havg, hminU, hmaxU, havgU, hfs, hls]
    rfl

theorem aggregation_stats_correct_witness :
    (⟨"u@x", "google", "gemini", some "G", some 50, some 90, some 70,
        none, none, none, 5, some "t1", some "t5"⟩ : AggRow).data_points =
      ((c8Rows.filter (aggRowFilter none none none none)).filter
        (fun r => decide (aggKey r = ("u@x", "google", "gemini")))).length ∧
    (∃ m, (some (50 : ℚ) : Option ℚ) = some m ∧ m ≤ 70) := by
  have hmem : (⟨"u@x", "google", "gemini", some "G", some 50, some 90, some 70,
      none, none, none, 5, some "t1", some "t5"⟩ : AggRow) ∈
      getAggregation c8Rows none none none none := by
    rw [aggregation_stats_correct.2.2]
    exact List.mem_singleton.mpr rfl
  have h := aggregation_stats_correct.2.1 c8Rows none none none none
    ⟨"u@x", "google", "gemini", some "G", some 50, some 90, some 70,
      none, none, none, 5, some "t1", some "t5"⟩ hmem
  exact ⟨h.1, (h.2.1 70 (by decide)).1⟩

/-! ## Fetch orchestrator (`src/limitwatch/cli.py`)

`fetch_account_data` wraps one account fetch in a total function — every
branch, including every raised exception, returns an
`(email, quotas, client, error)` tuple.  `_fetch_all_quotas` submits one
task per `(index, account)` pair to a pool of `min(N, 10)` workers and
stores each completed result in a dict keyed by the original index; the
dict is modelled as a function `Nat → Option FetchResult` and the
unspecified completion order as an arbitrary permutation of the input
list. -/

/-- A provider-level quota record as the rest of the pipeline sees it
(quota dicts in the Python code).  Fields mirror the keys the providers
emit. -/
structure Item where
  name : String
  display_name : String
  remaining_pct : ℚ
  remaining : Option ℚ
  limit : Option ℚ
  used : Option ℚ
  reset : Option String
  source_type : String
  endpoint : Option String
  show_progress : Option Bool
deriving DecidableEq, Repr

/-- The slice of an account dict that `fetch_account_data` reads:
`acc_data.get("email", ...)` and `acc_data.get("type", "google")`. -/
structure AccData where
  email : Option String
  accType : Option String
deriving DecidableEq, Repr

/-- An opaque credential token handed out by the auth manager. -/
structure Cred where
  tokenId : Nat
deriving DecidableEq, Repr

/-- The auth-manager collaborator: `get_credentials(idx)` may return no
credentials, and `refresh_credentials` may raise (modelled as the error
message it would raise with). -/
structure AuthEnv where
  getCredentials : Nat → Option Cred
  refreshError : Cred → Option String

/-- The outcome of constructing a `QuotaClient` and calling its
`fetch_quotas` for one account: a quota list, or a raised exception with
message. -/
inductive ClientOutcome where
  | ok (quotas : List Item)
  | raises (msg : String)
deriving DecidableEq, Repr

/-- The `(email, quotas, client, error)` tuple `fetch_account_data`
returns (`client` collapses to whether a client object is present). -/
structure FetchResult where
  email : String
  quotas : Option (List Item)
  client : Bool
  error : Option String
deriving DecidableEq, Repr

/-- The `try` block of `fetch_account_data`: build the client, fetch, and
turn any raised exception into an error tuple. -/
def fetchTryBlock (run : Nat → AccData → ClientOutcome) (idx : Nat)
    (acc : AccData) (email : String) : FetchResult :=
  match run idx acc with
  | .ok quotas => { email := email, quotas := some quotas, client := true, error := none }
  | .raises m => { email := email, quotas := none, client := false, error := some m }

/-- `fetch_account_data(idx, acc_data, auth_mgr, show_all)`: google-typed
accounts first load and refresh credentials (failures return an error
tuple), then every account runs the fetch with all exceptions caught. -/
def fetchAccountData (auth : AuthEnv) (run : Nat → AccData → ClientOutcome)
    (idx : Nat) (acc : AccData) : FetchResult :=
  let email := acc.email.getD ("Account " ++ toString idx)
  let accountType := acc.accType.getD "google"
  if accountType = "google" then
    match auth.getCredentials idx with
    | none =>
        { email := email, quotas := none, client := false,
          error := some ("Could not load credentials for " ++ email) }
    | some creds =>
        match auth.refreshError creds with
        | some m =>
            { email := email, quotas := none, client := false,
              error := some ("Token refresh failed: " ++ m) }
        | none => fetchTryBlock run idx acc email
  else fetchTryBlock run idx acc email

/-- `max_workers = min(len(indices_to_check), 10)`. -/
def maxWorkersFor (indices : List (Nat × AccData)) : Nat :=
  min indices.length 10

/-- `idx_to_result[idx] = future.result()`: one dict insertion. -/
def dictInsert (m : Nat → Option FetchResult) (k : Nat) (v : FetchResult) :
    Nat → Option FetchResult :=
  fun j => if j = k then some v else m j

/-- `_fetch_all_quotas`: every submitted future completes and stores its
result under its original index; `completionOrder` is the order
`as_completed` yields the futures in, an arbitrary permutation of the
submitted pairs. -/
def fetchAllQuotas (auth : AuthEnv) (run : Nat → AccData → ClientOutcome)
    (completionOrder : List (Nat × AccData)) : Nat → Option FetchResult :=
  completionOrder.foldl
    (fun m p => dictInsert m p.1 (fetchAccountData auth run p.1 p.2))
    (fun _ => none)

/-- How the callers of `_fetch_all_quotas` consume the dict: they walk
`indices_to_check` in its original order and read `idx_to_result[idx]`. -/
def collectResults (indices : List (Nat × AccData))
    (dict : Nat → Option FetchResult) : List (Option FetchResult) :=
  indices.map (fun p => dict p.1)

theorem fetchAll_lookup_untouched (auth : AuthEnv)
    (run : Nat → AccData → ClientOutcome) (order : List (Nat × AccData))
    (m : Nat → Option FetchResult) (i : Nat) (hi : i ∉ order.map Prod.fst) :
    order.foldl (fun m p => dictInsert m p.1 (fetchAccountData auth run p.1 p.2)) m i =
      m i := by
  induction order generalizing m with
  | nil => rfl
  | cons hd tl ih =>
      simp only [List.map_cons, List.mem_cons] at hi
      push_neg at hi
      simp only [List.foldl_cons]
      rw [ih _ hi.2]
      simp [dictInsert, hi.1]

theorem fetchAll_lookup (auth : AuthEnv) (run : Nat → AccData → ClientOutcome)
    (order : List (Nat × AccData)) (m : Nat → Option FetchResult)
    (i : Nat) (a : AccData) (hmem : (i, a) ∈ order)
    (hnodup : (order.map Prod.fst).Nodup) :
    order.foldl (fun m p => dictInsert m p.1 (fetchAccountData auth run p.1 p.2)) m i =
      some (fetchAccountData auth run i a) := by
  induction order generalizing m with
  | nil => cases hmem
  | cons hd tl ih =>
      simp only [List.map_cons, List.nodup_cons] at hnodup
      rcases List.mem_cons.mp hmem with rfl | hmem'
      · simp only [List.foldl_cons]
        rw [fetchAll_lookup_untouched auth run tl _ i hnodup.1]
        simp [dictInsert]
      · simp only [List.foldl_cons]
        exact ih _ hmem' hnodup.2

/-- C2: the batch fetch produces exactly one result tuple per input
account — the collected output equals, entry by entry and in the original
input order, the per-account `fetch_account_data` results, for every
completion order of the futures (so the output is independent of
completion order and its length equals the account count even when every
fetch raises) — and the worker pool is bounded by `min(N, 10)`. -/
theorem orchestrator_batch_shape (auth : AuthEnv)
    (run : Nat → AccData → ClientOutcome)
    (indices order : List (Nat × AccData))
    (hperm : order.Perm indices) (hnodup : (indices.map Prod.fst).Nodup) :
    collectResults indices (fetchAllQuotas auth run order) =
      indices.map (fun p => some (fetchAccountData auth run p.1 p.2)) ∧
    (collectResults indices (fetchAllQuotas auth run order)).length =
      indices.length ∧
    maxWorkersFor indices = min indices.length 10 := by
  have hnodup' : (order.map Prod.fst).Nodup :=
    ((hperm.map Prod.fst).nodup_iff).mpr hnodup
  have hmain : collectResults indices (fetchAllQuotas auth run order) =
      indices.map (fun p => some (fetchAccountData auth run p.1 p.2)) := by
    unfold collectResults
    apply List.map_congr_left
    rintro ⟨i, a⟩ hpair
    exact fetchAll_lookup auth run order _ i a (hperm.mem_iff.mpr hpair) hnodup'
  refine ⟨hmain, ?_, rfl⟩
  rw [hmain, List.length_map]

theorem orchestrator_batch_shape_witness :
    collectResults [(0, ⟨some "a@x", some "chutes"⟩), (1, ⟨none, none⟩)]
        (fetchAllQuotas ⟨fun _ => none, fun _ => none⟩
          (fun _ _ => .raises "boom")
          [(1, ⟨none, none⟩), (0, ⟨some "a@x", some "chutes"⟩)]) =
      [some (fetchAccountData ⟨fun _ => none, fun _ => none⟩
          (fun _ _ => .raises "boom") 0 ⟨some "a@x", some "chutes"⟩),
        some (fetchAccountData ⟨fun _ => none, fun _ => none⟩
          (fun _ _ => .raises "boom") 1 ⟨none, none⟩)] ∧
    maxWorkersFor [(0, ⟨some "a@x", some "chutes"⟩), (1, ⟨none, none⟩)] = 2 := by
  have h := orchestrator_batch_shape ⟨fun _ => none, fun _ => none⟩
    (fun _ _ => .raises "boom")
    [(0, ⟨some "a@x", some "chutes"⟩), (1, ⟨none, none⟩)]
    [(1, ⟨none, none⟩), (0, ⟨some "a@x", some "chutes"⟩)]
    (by decide) (by decide)
  exact ⟨h.1, h.2.2⟩

/-! ## Provider base (`src/limitwatch/providers/base.py`)

Wall-clock instants and durations are rationals.  `time_remaining` and
`has_time_remaining` read `time.perf_counter()`; the embedding passes the
current instant `now` explicitly, with one instant per fetch step. -/

/-- `BaseProvider.time_remaining(default_timeout)`: the full default when
no deadline is set, `0.0` once the deadline has passed, otherwise the
smaller of the default and the time left. -/
def timeRemaining (deadline : Option ℚ) (now : ℚ) (defaultTimeout : ℚ) : ℚ :=
  match deadline with
  | none => defaultTimeout
  | some d => if d - now ≤ 0 then 0 else min defaultTimeout (d - now)

/-- `BaseProvider.has_time_remaining()`. -/
def hasTimeRemaining (deadline : Option ℚ) (now : ℚ) : Bool :=
  match deadline with
  | none => true
  | some d => decide (0 < d - now)

/-! ## HTTP oracle and Python exceptions

One `requests.get`/`post` call either raises a library exception or yields
a response with a status code and a body whose `.json()` decoding may
fail.  Python exception classes that the code branches on are modelled as
constructors: a `ValueError` (which the `requests` JSON decode error
subclasses), a generic `Exception`, and the `requests` network/HTTP
errors. -/

/-- A Python exception, tagged with the class the handlers test for. -/
inductive PyExn where
  | exception (msg : String)
  | valueError (msg : String)
  | requestError (msg : String)
deriving DecidableEq, Repr

/-- `str(e)`. -/
def PyExn.msg : PyExn → String
  | .exception m => m
  | .valueError m => m
  | .requestError m => m

/-- Whether `except ValueError` catches this exception (JSON decode errors
from `resp.json()` are `ValueError` subclasses). -/
def PyExn.isValueError : PyExn → Bool
  | .valueError _ => true
  | _ => false

/-- Substring test on character lists, for Python `needle in haystack`. -/
def strContainsSub (p : List Char) : List Char → Bool
  | [] => p.isEmpty
  | c :: rest => p.isPrefixOf (c :: rest) || strContainsSub p rest

/-- `"Unauthorized" in str(e)`. -/
def mentionsUnauthorized (e : PyExn) : Bool :=
  strContainsSub "Unauthorized".toList e.msg.toList

instance {ε α : Type} [DecidableEq ε] [DecidableEq α] :
    DecidableEq (Except ε α)
  | .ok a, .ok b =>
      if h : a = b then .isTrue (h ▸ rfl)
      else .isFalse (fun hc => h (Except.ok.inj hc))
  | .ok _, .error _ => .isFalse (fun hc => Except.noConfusion hc)
  | .error _, .ok _ => .isFalse (fun hc => Except.noConfusion hc)
  | .error a, .error b =>
      if h : a = b then .isTrue (h ▸ rfl)
      else .isFalse (fun hc => h (Except.error.inj hc))

/-- What one HTTP request does: raise inside the library, or return a
response whose JSON body either decodes to `α` or fails with a decode
error message. -/
inductive ReqOutcome (α : Type) where
  | exn (msg : String)
  | resp (status : Nat) (body : Except String α)
deriving DecidableEq, Repr

/-- A network call the provider issued, with the timeout it passed. -/
structure NetCall where
  endpoint : String
  timeout : ℚ
deriving DecidableEq, Repr

/-! ## Chutes provider (`src/limitwatch/providers/chutes.py`) -/

/-- `FETCH_TIMEOUT = 1.5`, given in lowest terms as the rational 3/2
(stated literally so that concrete runs of the model evaluate). -/
def CHUTES_FETCH_TIMEOUT : ℚ := ⟨3, 2, by decide, by decide⟩

theorem CHUTES_FETCH_TIMEOUT_eq : CHUTES_FETCH_TIMEOUT = 3 / 2 := by
  rw [show CHUTES_FETCH_TIMEOUT = Rat.mk' 3 2 (by decide) (by decide) from rfl]
  rw [Rat.mk'_eq_divInt, Rat.divInt_eq_div]
  norm_num

/-- Round to the nearest integer with ties to even, as float repr
formatting does at the rounded decimal digit. -/
def roundTiesEven (q : ℚ) : ℤ :=
  let fl := ⌊q⌋
  if q - fl < 1 / 2 then fl
  else if 1 / 2 < q - fl then fl + 1
  else if fl % 2 = 0 then fl else fl + 1

/-- Python `f"{q:.2f}"` for a non-negative amount. -/
def formatMoney2 (q : ℚ) : String :=
  let n := (roundTiesEven (q * 100)).toNat
  toString (n / 100) ++ "." ++ pad2 (n % 100)

/-- The JSON body of `GET /users/me` (only `balance` is read, with
default `0.0`). -/
structure UsersMeBody where
  balance : Option ℚ
deriving DecidableEq, Repr

/-- The JSON body of a quota-usage response. -/
structure UsageBody where
  chute_id : Option String
  quota : Option ℚ
  limit : Option ℚ
  used : Option ℚ
deriving DecidableEq, Repr

/-- One entry of the `GET /users/me/quotas` listing. -/
structure QuotaEntry where
  chute_id : Option String
  id : Option String
deriving DecidableEq, Repr

/-- The remote side of the Chutes API, per endpoint; `quotaList` body
`none` models a 200 JSON body that is not a list. -/
structure ChutesEnv where
  usersMe : ReqOutcome UsersMeBody
  quotaList : ReqOutcome (Option (List QuotaEntry))
  usage : String → ReqOutcome UsageBody
  fallbackUsage : ReqOutcome UsageBody

/-- The Strategy-Cache slice of a Chutes account dict. -/
structure ChutesAccount where
  apiKey : Option String
  chutesQuotaStrategy : Option String
deriving DecidableEq, Repr

/-- The credits record `_fetch_balance` builds for a positive balance. -/
def chutesBalanceItem (balance : ℚ) : Item :=
  { name := "Chutes Credits"
    display_name := "Credits: $" ++ formatMoney2 balance
    remaining_pct := 100
    remaining := none
    limit := none
    used := none
    reset := some "N/A"
    source_type := "Chutes"
    endpoint := some "balance"
    show_progress := some false }

/-- `_build_quota_result(chute_id, limit, used, reset)`: `None` when the
limit is not positive, else the quota record with
`remaining_pct = max(0, (limit - used) / limit) * 100`. -/
def buildQuotaResult (chuteId : String) (limit used : ℚ) (reset : String) :
    Option Item :=
  if limit ≤ 0 then none
  else
    let remaining := pyInt (limit - used)
    some
      { name := "Chutes Quota (" ++ chuteId ++ ")"
        display_name :=
          if chuteId = "*" then
            "Quota (" ++ toString remaining ++ "/" ++ toString (pyInt limit) ++ ")"
          else
            "Quota: " ++ chuteId.take 8 ++ "... (" ++ toString remaining ++ "/" ++
              toString (pyInt limit) ++ ")"
        remaining_pct := max 0 ((limit - used) / limit) * 100
        remaining := some (remaining : ℚ)
        limit := some ((pyInt limit : ℤ) : ℚ)
        used := some ((pyInt used : ℤ) : ℚ)
        reset := some reset
        source_type := "Chutes"
        endpoint := none
        show_progress := none }

/-- The response handling of `_fetch_balance`: raise plain
`Exception("Unauthorized: ...")` on 401/403, parse the body on 200 (a
decode failure raises), return the credits item only for a positive
balance. -/
def chutesBalanceRespond : ReqOutcome UsersMeBody → Except PyExn (Option Item)
  | .exn m => .error (.requestError m)
  | .resp status body =>
      if status = 401 ∨ status = 403 then
        .error (.exception "Unauthorized: Invalid Chutes.ai API key")
      else if status = 200 then
        match body with
        | .error m => .error (.valueError m)
        | .ok b =>
            if 0 < b.balance.getD 0 then
              .ok (some (chutesBalanceItem (b.balance.getD 0)))
            else .ok none
      else .ok none

/-- `ChutesProvider._fetch_balance`: guard on remaining time, then call
`/users/me` with the clamped timeout. -/
def chutesFetchBalance (env : ChutesEnv) (deadline : Option ℚ) (now : ℚ) :
    Except PyExn (Option Item) × List NetCall :=
  if hasTimeRemaining deadline now then
    (chutesBalanceRespond env.usersMe,
      [⟨"/users/me", timeRemaining deadline now CHUTES_FETCH_TIMEOUT⟩])
  else (.ok none, [])

/-- The response handling of `_fetch_fallback_quota`: `None` on non-200,
else build one quota item from the body. -/
def chutesFallbackRespond (nextReset : String) :
    ReqOutcome UsageBody → Except PyExn (Option Item)
  | .exn m => .error (.requestError m)
  | .resp status body =>
      if status ≠ 200 then .ok none
      else
        match body with
        | .error m => .error (.valueError m)
        | .ok d =>
            .ok (buildQuotaResult (pyOrStr d.chute_id "*")
              (pyOr2Q d.quota d.limit) (d.used.getD 0) nextReset)

/-- `ChutesProvider._fetch_fallback_quota`: guard on remaining time, then
call `/users/me/quota_usage/me` with the clamped timeout. -/
def chutesFetchFallback (env : ChutesEnv) (deadline : Option ℚ) (now : ℚ)
    (nextReset : String) : Except PyExn (Option Item) × List NetCall :=
  if hasTimeRemaining deadline now then
    (chutesFallbackRespond nextReset env.fallbackUsage,
      [⟨"/users/me/quota_usage/me", timeRemaining deadline now CHUTES_FETCH_TIMEOUT⟩])
  else (.ok none, [])

/-- `fetch_one` inside `_fetch_usages_parallel`: skip entries without an
id, swallow every exception, default the body's `chute_id` to the
requested id. -/
def chutesFetchOneUsage (env : ChutesEnv) (usageTimeout : ℚ)
    (q : QuotaEntry) : Option UsageBody × List NetCall :=
  match pyOrOptStr q.chute_id q.id with
  | none => (none, [])
  | some cid =>
      let call : NetCall := ⟨"/users/me/quota_usage/" ++ cid, usageTimeout⟩
      match env.usage cid with
      | .exn _ => (none, [call])
      | .resp status body =>
          if status = 200 then
            match body with
            | .error _ => (none, [call])
            | .ok d => (some { d with chute_id := some (d.chute_id.getD cid) }, [call])
          else (none, [call])

/-- The response handling of `_fetch_quota_list`: `[]` on non-200 or a
non-list body, `[]` when the usage timeout is exhausted, else one usage
sub-call per listed entry with the built quota items. -/
def chutesQuotaListRespond (env : ChutesEnv) (usageTimeout : ℚ)
    (nextReset : String) :
    ReqOutcome (Option (List QuotaEntry)) → Except PyExn (List Item) × List NetCall
  | .exn m => (.error (.requestError m), [])
  | .resp status body =>
      if status ≠ 200 then (.ok [], [])
      else
        match body with
        | .error m => (.error (.valueError m), [])
        | .ok none => (.ok [], [])
        | .ok (some entries) =>
            if usageTimeout ≤ 0 then (.ok [], [])
            else
              let pairs := entries.map (chutesFetchOneUsage env usageTimeout)
              ((.ok ((pairs.map Prod.fst).filterMap (fun u =>
                  u.bind (fun d =>
                    buildQuotaResult (pyOrStr d.chute_id "Unknown")
                      (pyOr2Q d.quota d.limit) (d.used.getD 0) nextReset)))),
                (pairs.map Prod.snd).foldr (· ++ ·) [])

/-- `ChutesProvider._fetch_quota_list`: guard on remaining time, call
`/users/me/quotas` with the clamped timeout, then handle the response
(whose usage sub-calls reuse the re-computed remaining time). -/
def chutesFetchQuotaList (env : ChutesEnv) (deadline : Option ℚ) (now : ℚ)
    (nextReset : String) : Except PyExn (List Item) × List NetCall :=
  if hasTimeRemaining deadline now then
    let r := chutesQuotaListRespond env
      (timeRemaining deadline now CHUTES_FETCH_TIMEOUT) nextReset env.quotaList
    (r.1, ⟨"/users/me/quotas", timeRemaining deadline now CHUTES_FETCH_TIMEOUT⟩ :: r.2)
  else (.ok [], [])

/-- The `except` clause of `fetch_quotas`: re-raise when the message
mentions `Unauthorized`, otherwise swallow and return `[]`. -/
def chutesHandleExn (e : PyExn) (calls : List NetCall) (acct : ChutesAccount) :
    Except PyExn (List Item) × List NetCall × ChutesAccount :=
  if mentionsUnauthorized e then (.error e, calls, acct)
  else (.ok [], calls, acct)

/-- The result assembly of `fetch_quotas`: balance item first, then the
full listing if non-empty, else the fallback quota if present. -/
def chutesAssemble (balanceItem : Option Item) (listQuotas : List Item)
    (fallbackQuota : Option Item) : List Item :=
  (match balanceItem with | some b => [b] | none => []) ++
    (if listQuotas ≠ [] then listQuotas
     else match fallbackQuota with | some f => [f] | none => [])

/-- `ChutesProvider.fetch_quotas`: empty for a missing key or an expired
deadline; always issues the balance and fallback probes; consults the
cached `chutesQuotaStrategy` (default `"auto"`) to decide whether to fetch
the full listing; writes the strategy that produced data back into the
account dict; propagates only exceptions whose message mentions
`Unauthorized`. -/
def chutesFetchQuotas (env : ChutesEnv) (deadline : Option ℚ) (now : ℚ)
    (nextReset : String) (acct : ChutesAccount) :
    Except PyExn (List Item) × List NetCall × ChutesAccount :=
  match acct.apiKey with
  | none => (.ok [], [], acct)
  | some key =>
      if key = "" then (.ok [], [], acct)
      else
        let strategy := acct.chutesQuotaStrategy.getD "auto"
        if hasTimeRemaining deadline now then
          let bal := chutesFetchBalance env deadline now
          let fb := chutesFetchFallback env deadline now nextReset
          let baseCalls := bal.2 ++ fb.2
          match bal.1 with
          | .error e => chutesHandleExn e baseCalls acct
          | .ok balanceItem =>
              match fb.1 with
              | .error e => chutesHandleExn e baseCalls acct
              | .ok fallbackQuota =>
                  if strategy = "full" then
                    let lst := chutesFetchQuotaList env deadline now nextReset
                    match lst.1 with
                    | .error e => chutesHandleExn e (baseCalls ++ lst.2) acct
                    | .ok listQuotas =>
                        (.ok (chutesAssemble balanceItem listQuotas fallbackQuota),
                          baseCalls ++ lst.2,
                          if listQuotas ≠ [] then
                            { acct with chutesQuotaStrategy := some "full" }
                          else acct)
                  else if strategy = "auto" then
                    if fallbackQuota.isNone ∧ hasTimeRemaining deadline now then
                      let lst := chutesFetchQuotaList env deadline now nextReset
                      match lst.1 with
                      | .error e => chutesHandleExn e (baseCalls ++ lst.2) acct
                      | .ok listQuotas =>
                          (.ok (chutesAssemble balanceItem listQuotas fallbackQuota),
                            baseCalls ++ lst.2,
                            if listQuotas ≠ [] then
                              { acct with chutesQuotaStrategy := some "full" }
                            else acct)
                    else if fallbackQuota.isSome then
                      (.ok (chutesAssemble balanceItem [] fallbackQuota),
                        baseCalls,
                        { acct with chutesQuotaStrategy := some "fallback" })
                    else
                      (.ok (chutesAssemble balanceItem [] fallbackQuota),
                        baseCalls, acct)
                  else if fallbackQuota.isSome then
                    (.ok (chutesAssemble balanceItem [] fallbackQuota),
                      baseCalls,
                      { acct with chutesQuotaStrategy := some "fallback" })
                  else
                    (.ok (chutesAssemble balanceItem [] fallbackQuota),
                      baseCalls, acct)
        else (.ok [], [], acct)

/-! ## OpenRouter provider (`src/limitwatch/providers/openrouter.py`)

Endpoint discovery order: `GET /credits` (management key, all failures
swallowed), then `GET /auth/key` (regular key, which deliberately raises a
`ValueError` on 401/403 and re-raises every `ValueError` — a class that
the JSON decode error of `resp.json()` also belongs to). -/

/-- `FETCH_TIMEOUT = 2`. -/
def OR_FETCH_TIMEOUT : ℚ := 2

/-- `_pct(remaining, limit)`. -/
def orPct (remaining limit : ℚ) : ℚ :=
  if limit ≤ 0 then 100 else max 0 (min 100 (remaining / limit * 100))

/-- The `data` object of `GET /credits`. -/
structure CreditsBody where
  total_credits : Option ℚ
  total_usage : Option ℚ
deriving DecidableEq, Repr

/-- The `data` object of `GET /auth/key`. -/
structure KeyBody where
  usage : Option ℚ
  limit : Option ℚ
  label : Option String
  keyName : Option String
deriving DecidableEq, Repr

/-- The remote side of the OpenRouter API. -/
structure ORouterEnv where
  credits : ReqOutcome CreditsBody
  authKey : ReqOutcome KeyBody

/-- `OpenRouterProvider._fetch_credits`: every failure — auth status,
`raise_for_status` on a 4xx/5xx, network error, malformed body — yields
`None`; a good body yields the credits item. -/
def orCreditsRespond : ReqOutcome CreditsBody → Option Item
  | .exn _ => none
  | .resp status body =>
      if status = 401 ∨ status = 403 then none
      else if 400 ≤ status then none
      else
        match body with
        | .error _ => none
        | .ok b =>
            let total := b.total_credits.getD 0
            let used := b.total_usage.getD 0
            let remaining := max 0 (total - used)
            some
              { name := "OpenRouter Credits"
                display_name :=
                  "Credits: $" ++ formatMoney2 remaining ++ " remaining"
                remaining_pct := orPct remaining total
                remaining := some remaining
                limit := some total
                used := some used
                reset := none
                source_type := "OpenRouter"
                endpoint := some "credits"
                show_progress := some false }

def orFetchCredits (env : ORouterEnv) (deadline : Option ℚ) (now : ℚ) :
    Option Item × List NetCall :=
  if hasTimeRemaining deadline now then
    (orCreditsRespond env.credits,
      [⟨"/credits", timeRemaining deadline now OR_FETCH_TIMEOUT⟩])
  else (none, [])

/-- `OpenRouterProvider._fetch_key_info`: 401/403 raises the deliberate
`ValueError`; `raise_for_status` failures and network errors are swallowed
to `None`; but a JSON decode failure raises a `ValueError` subclass, which
the `except ValueError: raise` handler re-raises. -/
def orKeyRespond : ReqOutcome KeyBody → Except PyExn (Option Item)
  | .exn _ => .ok none
  | .resp status body =>
      if status = 401 ∨ status = 403 then
        .error (.valueError "Unauthorized: Invalid OpenRouter API key")
      else if 400 ≤ status then .ok none
      else
        match body with
        | .error m => .error (.valueError m)
        | .ok b =>
            let usage := b.usage.getD 0
            let label := pyOrStr b.label (pyOrStr b.keyName "Key")
            match b.limit with
            | some l =>
                let remaining := max 0 (l - usage)
                .ok (some
                  { name := "OpenRouter Key"
                    display_name :=
                      label ++ ": $" ++ formatMoney2 remaining ++ " remaining"
                    remaining_pct := orPct remaining l
                    remaining := some remaining
                    limit := some l
                    used := some usage
                    reset := none
                    source_type := "OpenRouter"
                    endpoint := some "auth/key"
                    show_progress := some false })
            | none =>
                .ok (some
                  { name := "OpenRouter Key"
                    display_name :=
                      label ++ ": $" ++ formatMoney2 usage ++ " spent"
                    remaining_pct := 100
                    remaining := some 0
                    limit := some 0
                    used := some usage
                    reset := none
                    source_type := "OpenRouter"
                    endpoint := some "auth/key"
                    show_progress := some false })

def orFetchKeyInfo (env : ORouterEnv) (deadline : Option ℚ) (now : ℚ) :
    Except PyExn (Option Item) × List NetCall :=
  if hasTimeRemaining deadline now then
    (orKeyRespond env.authKey,
      [⟨"/auth/key", timeRemaining deadline now OR_FETCH_TIMEOUT⟩])
  else (.ok none, [])

/-- `OpenRouterProvider.fetch_quotas`: credits endpoint first, key-info
endpoint as fallback; whatever `_fetch_key_info` raises propagates. -/
def orFetchQuotas (env : ORouterEnv) (deadline : Option ℚ) (now : ℚ)
    (apiKey : Option String) : Except PyExn (List Item) × List NetCall :=
  match apiKey with
  | none => (.ok [], [])
  | some k =>
      if k = "" then (.ok [], [])
      else if hasTimeRemaining deadline now then
        let cr := orFetchCredits env deadline now
        match cr.1 with
        | some item => (.ok [item], cr.2)
        | none =>
            let ki := orFetchKeyInfo env deadline now
            match ki.1 with
            | .error e => (.error e, cr.2 ++ ki.2)
            | .ok (some item) => (.ok [item], cr.2 ++ ki.2)
            | .ok none => (.ok [], cr.2 ++ ki.2)
      else (.ok [], [])

/-! ## Google quota request fallback
(`src/gemini_quota/providers/google.py`, `_make_quota_request`)

The per-account preference `_prefer_no_project` is seeded from the account
dict (`preferNoProjectForQuota`) and threaded through: a successful
project-scoped call keeps it `False`; a failed one sets it `True` and
falls through to the unscoped call; once `True`, the project-scoped
variant is skipped. -/

/-- The remote side of the `retrieveUserQuota` endpoint, one outcome per
request shape (only the status code is inspected here). -/
structure GoogleEnv where
  projectResp : ReqOutcome Unit
  noProjectResp : ReqOutcome Unit

/-- The unscoped (`json={}`) request and the preference update after it. -/
def googleSecondCall (env : GoogleEnv) (preferIn : Bool)
    (calls : List String) : Except String Nat × Bool × List String :=
  match env.noProjectResp with
  | .exn m => (.error m, preferIn, calls ++ ["noproject"])
  | .resp st _ =>
      if st = 200 then (.ok st, true, calls ++ ["noproject"])
      else (.ok st, preferIn, calls ++ ["noproject"])

/-- `GoogleProvider._make_quota_request(url, headers, project_id)`:
returns the final response status (or the raised exception), the updated
preference flag, and the request shapes attempted in order. -/
def googleMakeQuotaRequest (env : GoogleEnv) (projectId : Option String)
    (prefer : Bool) : Except String Nat × Bool × List String :=
  if pyTruthyStr projectId && !prefer then
    match env.projectResp with
    | .exn m => (.error m, prefer, ["project"])
    | .resp st _ =>
        if st = 200 then (.ok st, false, ["project"])
        else googleSecondCall env true ["project"]
  else googleSecondCall env prefer []

theorem hasTimeRemaining_false {d now : ℚ} (h : d - now ≤ 0) :
    hasTimeRemaining (some d) now = false := by
  simp only [hasTimeRemaining, decide_eq_false_iff_not, not_lt]
  exact h

theorem hasTimeRemaining_pos {d now : ℚ}
    (h : hasTimeRemaining (some d) now = true) : 0 < d - now := by
  simpa [hasTimeRemaining] using h

theorem timeRemaining_of_pos {d now : ℚ} (h : 0 < d - now) (t : ℚ) :
    timeRemaining (some d) now t = min t (d - now) := by
  simp [timeRemaining, not_le.mpr h]

theorem chutesHandleExn_calls (e : PyExn) (calls : List NetCall)
    (acct : ChutesAccount) : (chutesHandleExn e calls acct).2.1 = calls := by
  unfold chutesHandleExn
  split <;> rfl

theorem chutesFetchBalance_calls (env : ChutesEnv) (dl : Option ℚ) (now : ℚ) :
    ∀ c ∈ (chutesFetchBalance env dl now).2,
      c.timeout = timeRemaining dl now CHUTES_FETCH_TIMEOUT ∧
      hasTimeRemaining dl now = true := by
  intro c hc
  unfold chutesFetchBalance at hc
  by_cases h : hasTimeRemaining dl now
  · rw [if_pos h] at hc
    simp only [List.mem_singleton] at hc
    subst hc
    exact ⟨rfl, h⟩
  · rw [if_neg h] at hc
    simp at hc

theorem chutesFetchFallback_calls (env : ChutesEnv) (dl : Option ℚ)
    (now : ℚ) (nextReset : String) :
    ∀ c ∈ (chutesFetchFallback env dl now nextReset).2,
      c.timeout = timeRemaining dl now CHUTES_FETCH_TIMEOUT ∧
      hasTimeRemaining dl now = true := by
  intro c hc
  unfold chutesFetchFallback at hc
  by_cases h : hasTimeRemaining dl now
  · rw [if_pos h] at hc
    simp only [List.mem_singleton] at hc
    subst hc
    exact ⟨rfl, h⟩
  · rw [if_neg h] at hc
    simp at hc

theorem chutesFetchOneUsage_calls (env : ChutesEnv) (t : ℚ) (q : QuotaEntry) :
    ∀ c ∈ (chutesFetchOneUsage env t q).2, c.timeout = t := by
  intro c hc
  unfold chutesFetchOneUsage at hc
  cases hcid : pyOrOptStr q.chute_id q.id with
  | none => rw [hcid] at hc; simp at hc
  | some cid =>
      rw [hcid] at hc
      dsimp only at hc
      cases hu : env.usage cid with
      | exn m =>
          rw [hu] at hc
          simp only [List.mem_singleton] at hc; subst hc; rfl
      | resp st bd =>
          rw [hu] at hc
          simp only at hc
          split at hc
          · cases bd <;> simp only [List.mem_singleton] at hc <;>
              subst hc <;> rfl
          · simp only [List.mem_singleton] at hc; subst hc; rfl

theorem mem_foldr_append {α : Type} (ls : List (List α)) (c : α)
    (hc : c ∈ ls.foldr (· ++ ·) []) : ∃ l ∈ ls, c ∈ l := by
  induction ls with
  | nil => simp at hc
  | cons hd tl ih =>
      simp only [List.foldr_cons, List.mem_append] at hc
      rcases hc with h | h
      · exact ⟨hd, List.mem_cons_self _ _, h⟩
      · obtain ⟨l, hl, hcl⟩ := ih h
        exact ⟨l, List.mem_cons_of_mem _ hl, hcl⟩

theorem chutesQuotaListRespond_calls (env : ChutesEnv) (t : ℚ)
    (nextReset : String) (r : ReqOutcome (Option (List QuotaEntry))) :
    ∀ c ∈ (chutesQuotaListRespond env t nextReset r).2, c.timeout = t := by
  intro c hc
  unfold chutesQuotaListRespond at hc
  rcases r with m | ⟨st, bd⟩
  · simp at hc
  · simp only at hc
    split at hc
    · simp at hc
    · rcases bd with m | entries
      · simp at hc
      · rcases entries with _ | entries
        · simp at hc
        · simp only at hc
          split at hc
          · simp at hc
          · obtain ⟨l, hl, hcl⟩ := mem_foldr_append _ c hc
            simp only [List.mem_map] at hl
            obtain ⟨p, hp, rfl⟩ := hl
            obtain ⟨q, _, rfl⟩ := hp
            exact chutesFetchOneUsage_calls env t q c hcl

theorem chutesFetchQuotaList_calls (env : ChutesEnv) (dl : Option ℚ)
    (now : ℚ) (nextReset : String) :
    ∀ c ∈ (chutesFetchQuotaList env dl now nextReset).2,
      c.timeout = timeRemaining dl now CHUTES_FETCH_TIMEOUT ∧
      hasTimeRemaining dl now = true := by
  intro c hc
  unfold chutesFetchQuotaList at hc
  by_cases h : hasTimeRemaining dl now
  · rw [if_pos h] at hc
    simp only [List.mem_cons] at hc
    rcases hc with rfl | hc
    · exact ⟨rfl, h⟩
    · exact ⟨chutesQuotaListRespond_calls env _ nextReset env.quotaList c hc, h⟩
  · rw [if_neg h] at hc
    simp at hc

theorem chutesFetchQuotas_calls (env : ChutesEnv) (dl : Option ℚ)
    (now : ℚ) (nextReset : String) (acct : ChutesAccount) :
    ∀ c ∈ (chutesFetchQuotas env dl now nextReset acct).2.1,
      c.timeout = timeRemaining dl now CHUTES_FETCH_TIMEOUT ∧
      hasTimeRemaining dl now = true := by
  intro c hc
  have hbase : ∀ c ∈ (chutesFetchBalance env dl now).2 ++
      (chutesFetchFallback env dl now nextReset).2,
      c.timeout = timeRemaining dl now CHUTES_FETCH_TIMEOUT ∧
      hasTimeRemaining dl now = true := by
    intro x hx
    rcases List.mem_append.mp hx with h | h
    · exact chutesFetchBalance_calls env dl now x h
    · exact chutesFetchFallback_calls env dl now nextReset x h
  have hext : ∀ c ∈ (chutesFetchBalance env dl now).2 ++
      (chutesFetchFallback env dl now nextReset).2 ++
      (chutesFetchQuotaList env dl now nextReset).2,
      c.timeout = timeRemaining dl now CHUTES_FETCH_TIMEOUT ∧
      hasTimeRemaining dl now = true := by
    intro x hx
    rcases List.mem_append.mp hx with h | h
    · exact hbase x h
    · exact chutesFetchQuotaList_calls env dl now nextReset x h
  unfold chutesFetchQuotas at hc
  cases hk : acct.apiKey with
  | none => rw [hk] at hc; simp at hc
  | some key =>
    rw [hk] at hc
    dsimp only at hc
    split at hc
    · simp at hc
    · by_cases h : hasTimeRemaining dl now
      · rw [if_pos h] at hc
        repeat' split at hc
        all_goals simp only [chutesHandleExn_calls] at hc
        all_goals
          first
            | exact hbase c hc
            | exact hext c hc
            | simp at hc
      · rw [if_neg h] at hc
        simp at hc

/-- C3: once the deadline has elapsed, the fetch and every sub-fetch
return immediately with no quotas and issue no network call; and every
network call the fetch does issue carries
`timeout = min(per_call_timeout, deadline - now)`, which is strictly
positive. -/
theorem chutes_deadline_discipline (env : ChutesEnv) (d now : ℚ)
    (nextReset : String) (acct : ChutesAccount) :
    (d - now ≤ 0 →
      chutesFetchQuotas env (some d) now nextReset acct = (.ok [], [], acct) ∧
      chutesFetchBalance env (some d) now = (.ok none, []) ∧
      chutesFetchFallback env (some d) now nextReset = (.ok none, []) ∧
      chutesFetchQuotaList env (some d) now nextReset = (.ok [], [])) ∧
    (∀ c ∈ (chutesFetchQuotas env (some d) now nextReset acct).2.1,
      c.timeout = min CHUTES_FETCH_TIMEOUT (d - now) ∧ 0 < c.timeout) := by
  constructor
  · intro hexp
    have hfalse := hasTimeRemaining_false hexp
    refine ⟨?_, ?_, ?_, ?_⟩
    · unfold chutesFetchQuotas
      cases acct.apiKey with
      | none => rfl
      | some key =>
          dsimp only
          rw [hfalse]
          split <;> rfl
    · unfold chutesFetchBalance; rw [hfalse]; rfl
    · unfold chutesFetchFallback; rw [hfalse]; rfl
    · unfold chutesFetchQuotaList; rw [hfalse]; rfl
  · intro c hc
    obtain ⟨ht, hhas⟩ :=
      chutesFetchQuotas_calls env (some d) now nextReset acct c hc
    have hpos := hasTimeRemaining_pos hhas
    rw [timeRemaining_of_pos hpos] at ht
    refine ⟨ht, ?_⟩
    rw [ht]
    have h32 : (0 : ℚ) < CHUTES_FETCH_TIMEOUT := by
      rw [CHUTES_FETCH_TIMEOUT_eq]; norm_num
    exact lt_min h32 hpos

theorem chutes_deadline_discipline_witness :
    (chutesFetchQuotas
        ⟨.exn "boom", .exn "boom", fun _ => .exn "boom", .exn "boom"⟩
        (some 1) 2 "r" ⟨some "k", none⟩ = (.ok [], [], ⟨some "k", none⟩)) ∧
    ((⟨"/users/me", 3 / 2⟩ : NetCall).timeout = min CHUTES_FETCH_TIMEOUT (2 - 0) ∧
      0 < (⟨"/users/me", 3 / 2⟩ : NetCall).timeout) := by
  constructor
  · exact ((chutes_deadline_discipline
      ⟨.exn "boom", .exn "boom", fun _ => .exn "boom", .exn "boom"⟩
      1 2 "r" ⟨some "k", none⟩).1 (by norm_num)).1
  · apply (chutes_deadline_discipline
      ⟨.exn "boom", .exn "boom", fun _ => .exn "boom", .exn "boom"⟩
      2 0 "r" ⟨some "k", none⟩).2
    have h20 : hasTimeRemaining (some (2 : ℚ)) 0 = true := by
      norm_num [hasTimeRemaining]
    have htr : timeRemaining (some (2 : ℚ)) 0 CHUTES_FETCH_TIMEOUT = 3 / 2 := by
      rw [timeRemaining_of_pos (by norm_num), CHUTES_FETCH_TIMEOUT_eq]
      norm_num
    unfold chutesFetchQuotas
    dsimp only
    rw [if_neg (by simp), if_pos h20]
    unfold chutesFetchBalance chutesFetchFallback
    rw [if_pos h20, if_pos h20]
    unfold chutesBalanceRespond chutesHandleExn
    simp [mentionsUnauthorized, strContainsSub, PyExn.msg, htr]

/-- C4 (failing input): with the credits endpoint unavailable (404) and
the key-info endpoint returning HTTP 200 with a malformed body, the
OpenRouter `fetch_quotas` raises the JSON decode error — a `ValueError`
subclass that the `except ValueError: raise` handler of `_fetch_key_info`
re-raises — although a malformed body is an ordinary remote failure and
the raised exception is not the authentication error. -/
theorem openrouter_malformed_body_raises :
    (orFetchQuotas
        ⟨.resp 404 (.ok ⟨none, none⟩),
         .resp 200 (.error "Expecting value: line 1 column 1 (char 0)")⟩
        none 0 (some "k")).1 =
      .error (.valueError "Expecting value: line 1 column 1 (char 0)") ∧
    mentionsUnauthorized
      (.valueError "Expecting value: line 1 column 1 (char 0)") = false ∧
    PyExn.isValueError
      (.valueError "Expecting value: line 1 column 1 (char 0)") = true := by
  refine ⟨?_, by decide, rfl⟩
  rfl

/-- A Chutes remote where the fallback probe fails (404) but the full
listing would succeed: one listed chute whose usage reports 20 of 100
used, and a zero balance. -/
def c5Env : ChutesEnv :=
  ⟨.resp 200 (.ok ⟨some 0⟩),
   .resp 200 (.ok (some [⟨some "abcdefgh-123", none⟩])),
   fun _ => .resp 200 (.ok ⟨some "abcdefgh-123", some 100, none, some 20⟩),
   .resp 404 (.ok ⟨none, none, none, none⟩)⟩

/-- C5 (counterexample): an account whose cached strategy is `"fallback"`
and whose probe fails does NOT fall back through the full-listing variant
in the same call — the listing endpoint is never contacted even though it
would have succeeded — so the fetch hands back no quota data and leaves
the cache entry in place. -/
theorem strategy_cache_blocks_fallthrough :
    ((chutesFetchQuotas c5Env none 0 "r" ⟨some "k", some "fallback"⟩).2.1.map
        NetCall.endpoint = ["/users/me", "/users/me/quota_usage/me"]) ∧
    (chutesFetchQuotas c5Env none 0 "r" ⟨some "k", some "fallback"⟩).1 =
      .ok [] ∧
    (chutesFetchQuotas c5Env none 0 "r" ⟨some "k", some "fallback"⟩).2.2 =
      ⟨some "k", some "fallback"⟩ ∧
    (googleMakeQuotaRequest ⟨.resp 200 (.ok ()), .resp 500 (.ok ())⟩
        (some "proj") true).2.2 = ["noproject"] := by
  refine ⟨by decide, by decide, by decide, by decide⟩

/-- C5 (amended): the Strategy Cache is advisory on the cold path and for
a cached full-listing preference — a cold (`"auto"`) call whose probe
fails still tries the listing in the same call, and a cached `"full"`
whose listing comes back empty still returns the probe's quota — but a
cached `"fallback"` preference whose probe fails does not retry the
listing in that call, and the google no-project preference, once set,
skips the project-scoped variant. -/
theorem strategy_cache_advisory_amended :
    (∀ (env : ChutesEnv) (dl : Option ℚ) (now : ℚ) (r k : String)
      (b : Option Item),
      k ≠ "" → hasTimeRemaining dl now = true →
      (chutesFetchBalance env dl now).1 = .ok b →
      (chutesFetchFallback env dl now r).1 = .ok none →
      "/users/me/quotas" ∈
        (chutesFetchQuotas env dl now r ⟨some k, none⟩).2.1.map
          NetCall.endpoint) ∧
    (∀ (env : ChutesEnv) (dl : Option ℚ) (now : ℚ) (r k : String)
      (b : Option Item) (fq : Item),
      k ≠ "" → hasTimeRemaining dl now = true →
      (chutesFetchBalance env dl now).1 = .ok b →
      (chutesFetchFallback env dl now r).1 = .ok (some fq) →
      (chutesFetchQuotaList env dl now r).1 = .ok [] →
      (chutesFetchQuotas env dl now r ⟨some k, some "full"⟩).1 =
        .ok (chutesAssemble b [] (some fq))) ∧
    (∀ (env : ChutesEnv) (dl : Option ℚ) (now : ℚ) (r k : String)
      (b : Option Item),
      k ≠ "" → hasTimeRemaining dl now = true →
      (chutesFetchBalance env dl now).1 = .ok b →
      (chutesFetchFallback env dl now r).1 = .ok none →
      chutesFetchQuotas env dl now r ⟨some k, some "fallback"⟩ =
        (.ok (chutesAssemble b [] none),
          (chutesFetchBalance env dl now).2 ++
            (chutesFetchFallback env dl now r).2,
          ⟨some k, some "fallback"⟩)) ∧
    (∀ (env : GoogleEnv) (pid : Option String),
      (googleMakeQuotaRequest env pid true).2.2 = ["noproject"]) := by
  refine ⟨?_, ?_, ?_, ?_⟩
  · intro env dl now r k b hk ht hb hf
    unfold chutesFetchQuotas
    dsimp only
    rw [if_neg hk, if_pos ht, hb, hf]
    dsimp only
    rw [if_neg (by decide : ¬((none : Option String).getD "auto") = "full")]
    rw [if_pos (by decide : ((none : Option String).getD "auto") = "auto")]
    rw [if_pos (show (none : Option Item).isNone = true ∧
      hasTimeRemaining dl now = true from ⟨rfl, ht⟩)]
    have hlist : "/users/me/quotas" ∈
        (chutesFetchQuotaList env dl now r).2.map NetCall.endpoint := by
      unfold chutesFetchQuotaList
      rw [if_pos ht]
      simp
    cases hl : (chutesFetchQuotaList env dl now r).1 with
    | error e =>
        dsimp only
        rw [chutesHandleExn_calls]
        simp only [List.map_append, List.mem_append]
        exact Or.inr hlist
    | ok lq =>
        dsimp only
        simp only [List.map_append, List.mem_append]
        exact Or.inr hlist
  · intro env dl now r k b fq hk ht hb hf hl
    unfold chutesFetchQuotas
    dsimp only
    rw [if_neg hk, if_pos ht, hb, hf]
    dsimp only
    rw [if_pos (by decide : ((some "full" : Option String).getD "auto") = "full"),
      hl]
  · intro env dl now r k b hk ht hb hf
    unfold chutesFetchQuotas
    dsimp only
    rw [if_neg hk, if_pos ht, hb, hf]
    dsimp only
    rw [if_neg (by decide :
        ¬((some "fallback" : Option String).getD "auto") = "full"),
      if_neg (by decide :
        ¬((some "fallback" : Option String).getD "auto") = "auto")]
    rw [if_neg (by decide : ¬(none : Option Item).isSome = true)]
  · intro env pid
    unfold googleMakeQuotaRequest
    rw [if_neg (by simp)]
    unfold googleSecondCall
    cases env.noProjectResp with
    | exn m => rfl
    | resp st b => dsimp only; split <;> rfl

/-- A Chutes remote for exercising the cached-`"full"` fallback path: the
listing endpoint is down (500) while the fallback probe succeeds. -/
def c5bEnv : ChutesEnv :=
  ⟨.resp 200 (.ok ⟨some 0⟩),
   .resp 500 (.ok none),
   fun _ => .exn "down",
   .resp 200 (.ok ⟨some "*", some 100, none, some 20⟩)⟩

theorem strategy_cache_advisory_amended_witness :
    "/users/me/quotas" ∈
      (chutesFetchQuotas c5Env none 0 "r" ⟨some "k", none⟩).2.1.map
        NetCall.endpoint ∧
    (chutesFetchQuotas c5bEnv none 0 "r" ⟨some "k", some "full"⟩).1 =
      .ok (chutesAssemble none [] (buildQuotaResult "*" 100 20 "r")) ∧
    chutesFetchQuotas c5Env none 0 "r" ⟨some "k", some "fallback"⟩ =
      (.ok (chutesAssemble none [] none),
        (chutesFetchBalance c5Env none 0).2 ++
          (chutesFetchFallback c5Env none 0 "r").2,
        ⟨some "k", some "fallback"⟩) ∧
    (googleMakeQuotaRequest ⟨.resp 200 (.ok ()), .resp 404 (.ok ())⟩
        (some "p") true).2.2 = ["noproject"] := by
  refine ⟨?_, ?_, ?_, ?_⟩
  · exact strategy_cache_advisory_amended.1 c5Env none 0 "r" "k" none
      (by decide) rfl (by decide) (by decide)
  · obtain ⟨fq, hfq⟩ : ∃ fq, buildQuotaResult "*" (100 : ℚ) 20 "r" = some fq :=
      ⟨_, rfl⟩
    have hf : (chutesFetchFallback c5bEnv none 0 "r").1 = .ok (some fq) := by
      rw [← hfq]; rfl
    have happ := strategy_cache_advisory_amended.2.1 c5bEnv none 0 "r" "k"
      none fq (by decide) rfl (by decide) hf (by decide)
    rw [hfq]
    exact happ
  · exact strategy_cache_advisory_amended.2.2.1 c5Env none 0 "r" "k" none
      (by decide) rfl (by decide) (by decide)
  · exact strategy_cache_advisory_amended.2.2.2
      ⟨.resp 200 (.ok ()), .resp 404 (.ok ())⟩ (some "p")

/-- A Chutes remote where the fallback probe (variant A) fails and the
full listing (variant B) succeeds: the learning scenario of the Strategy
Cache. -/
def c6Env : ChutesEnv :=
  ⟨.resp 200 (.ok ⟨some 0⟩),
   .resp 200 (.ok (some [⟨some "abcdefgh-123", none⟩])),
   fun _ => .resp 200 (.ok ⟨some "abcdefgh-123", some 100, none, some 20⟩),
   .resp 404 (.ok ⟨none, none, none, none⟩)⟩

/-- C6 (counterexample): on the cold first call the Chutes provider tries
both the fallback probe (A, fails) and the full listing (B, succeeds) and
records `"full"` in the account's strategy state — but the second call
does NOT try only B: the always-issued fallback probe contacts variant A's
endpoint again. -/
theorem strategy_learning_second_call_counterexample :
    (chutesFetchQuotas c6Env none 0 "r" ⟨some "k", none⟩).2.2 =
      ⟨some "k", some "full"⟩ ∧
    "/users/me/quota_usage/me" ∈
      (chutesFetchQuotas c6Env none 0 "r" ⟨some "k", some "full"⟩).2.1.map
        NetCall.endpoint := by
  exact ⟨by decide, by decide⟩

/-- C6 (amended): with a cold cache, variant A failing and variant B
succeeding, the first call tries both A and B and writes B back as
preferred — exactly so for the google quota request (project-scoped = A,
unscoped = B, preference per provider instance), and for Chutes (probe =
A, listing = B, preference in the account dict).  The google second call
then tries only B; the Chutes second call goes straight to the listing in
its strategy branch but still issues the always-on fallback probe A. -/
theorem strategy_learning_amended :
    (∀ (env : GoogleEnv) (pid : Option String) (s : Nat)
      (b1 b2 : Except String Unit),
      pyTruthyStr pid = true → env.projectResp = .resp s b1 → s ≠ 200 →
      env.noProjectResp = .resp 200 b2 →
      googleMakeQuotaRequest env pid false =
        (.ok 200, true, ["project", "noproject"]) ∧
      (googleMakeQuotaRequest env pid true).2.2 = ["noproject"]) ∧
    (∀ (env : ChutesEnv) (dl : Option ℚ) (now : ℚ) (r k : String)
      (b : Option Item) (items : List Item),
      k ≠ "" → hasTimeRemaining dl now = true →
      (chutesFetchBalance env dl now).1 = .ok b →
      (chutesFetchFallback env dl now r).1 = .ok none →
      (chutesFetchQuotaList env dl now r).1 = .ok items → items ≠ [] →
      (chutesFetchQuotas env dl now r ⟨some k, none⟩).2.2 =
        ⟨some k, some "full"⟩ ∧
      "/users/me/quota_usage/me" ∈
        (chutesFetchQuotas env dl now r ⟨some k, none⟩).2.1.map
          NetCall.endpoint ∧
      "/users/me/quotas" ∈
        (chutesFetchQuotas env dl now r ⟨some k, none⟩).2.1.map
          NetCall.endpoint ∧
      "/users/me/quotas" ∈
        (chutesFetchQuotas env dl now r ⟨some k, some "full"⟩).2.1.map
          NetCall.endpoint ∧
      "/users/me/quota_usage/me" ∈
        (chutesFetchQuotas env dl now r ⟨some k, some "full"⟩).2.1.map
          NetCall.endpoint) := by
  constructor
  · intro env pid s b1 b2 hpid hproj hs hnoproj
    constructor
    · unfold googleMakeQuotaRequest
      rw [if_pos (by simp [hpid]), hproj]
      dsimp only
      rw [if_neg hs]
      unfold googleSecondCall
      rw [hnoproj]
      simp
    · unfold googleMakeQuotaRequest
      rw [if_neg (by simp)]
      unfold googleSecondCall
      rw [hnoproj]
      dsimp only
      split <;> rfl
  · intro env dl now r k b items hk ht hb hf hl hne
    have hfbcall : (chutesFetchFallback env dl now r).2 =
        [⟨"/users/me/quota_usage/me",
          timeRemaining dl now CHUTES_FETCH_TIMEOUT⟩] := by
      unfold chutesFetchFallback
      rw [if_pos ht]
    have hlstcall : "/users/me/quotas" ∈
        (chutesFetchQuotaList env dl now r).2.map NetCall.endpoint := by
      unfold chutesFetchQuotaList
      rw [if_pos ht]
      simp
    have hcold : chutesFetchQuotas env dl now r ⟨some k, none⟩ =
        (.ok (chutesAssemble b items none),
          (chutesFetchBalance env dl now).2 ++
            (chutesFetchFallback env dl now r).2 ++
            (chutesFetchQuotaList env dl now r).2,
          ⟨some k, some "full"⟩) := by
      unfold chutesFetchQuotas
      dsimp only
      rw [if_neg hk, if_pos ht, hb, hf]
      dsimp only
      rw [if_neg (by decide : ¬((none : Option String).getD "auto") = "full")]
      rw [if_pos (by decide : ((none : Option String).getD "auto") = "auto")]
      rw [if_pos (show (none : Option Item).isNone = true ∧
        hasTimeRemaining dl now = true from ⟨rfl, ht⟩), hl]
      dsimp only
      rw [if_pos hne]
    have hfull : chutesFetchQuotas env dl now r ⟨some k, some "full"⟩ =
        (.ok (chutesAssemble b items none),
          (chutesFetchBalance env dl now).2 ++
            (chutesFetchFallback env dl now r).2 ++
            (chutesFetchQuotaList env dl now r).2,
          ⟨some k, some "full"⟩) := by
      unfold chutesFetchQuotas
      dsimp only
      rw [if_neg hk, if_pos ht, hb, hf]
      dsimp only
      rw [if_pos (by decide : ((some "full" : Option String).getD "auto") = "full"),
        hl]
      dsimp only
      rw [if_pos hne]
    refine ⟨by rw [hcold], ?_, ?_, ?_, ?_⟩
    · rw [hcold]
      simp only [List.map_append, List.mem_append]
      left
      right
      rw [hfbcall]
      simp
    · rw [hcold]
      simp only [List.map_append, List.mem_append]
      exact Or.inr hlstcall
    · rw [hfull]
      simp only [List.map_append, List.mem_append]
      exact Or.inr hlstcall
    · rw [hfull]
      simp only [List.map_append, List.mem_append]
      left
      right
      rw [hfbcall]
      simp

theorem strategy_learning_amended_witness :
    googleMakeQuotaRequest ⟨.resp 403 (.ok ()), .resp 200 (.ok ())⟩
        (some "proj") false = (.ok 200, true, ["project", "noproject"]) ∧
    (chutesFetchQuotas c6Env none 0 "r" ⟨some "k", none⟩).2.2 =
      ⟨some "k", some "full"⟩ ∧
    "/users/me/quotas" ∈
      (chutesFetchQuotas c6Env none 0 "r" ⟨some "k", some "full"⟩).2.1.map
        NetCall.endpoint := by
  obtain ⟨items, hitems⟩ :
      ∃ items, (chutesFetchQuotaList c6Env none 0 "r").1 = .ok items :=
    ⟨_, rfl⟩
  have hne : items ≠ [] := by
    have : (chutesFetchQuotaList c6Env none 0 "r").1 ≠ .ok [] := by decide
    intro hcon
    rw [hcon] at hitems
    exact this hitems
  have hch := strategy_learning_amended.2 c6Env none 0 "r" "k" none items
    (by decide) rfl (by decide) (by decide) hitems hne
  refine ⟨?_, hch.1, hch.2.2.2.1⟩
  exact (strategy_learning_amended.1 ⟨.resp 403 (.ok ()), .resp 200 (.ok ())⟩
    (some "proj") 403 (.ok ()) (.ok ()) (by decide) rfl (by decide) rfl).1

/-- A Chutes remote holding a $5.00 balance and a fallback quota usage of
`used=50, limit=300`. -/
def c9Env : ChutesEnv :=
  ⟨.resp 200 (.ok ⟨some 5⟩),
   .resp 500 (.ok none),
   fun _ => .exn "nope",
   .resp 200 (.ok ⟨some "*", some 300, none, some 50⟩)⟩

/-- The quota record the fallback probe builds for `used=50, limit=300`. -/
def c9Quota : Item :=
  { name := "Chutes Quota (*)"
    display_name := "Quota (250/300)"
    remaining_pct := 250 / 3
    remaining := some 250
    limit := some 300
    used := some 50
    reset := some "r"
    source_type := "Chutes"
    endpoint := none
    show_progress := none }

theorem c9_buildQuotaResult : buildQuotaResult "*" 300 50 "r" = some c9Quota := by
  unfold buildQuotaResult
  rw [if_neg (by norm_num : ¬(300 : ℚ) ≤ 0)]
  dsimp only
  rw [show (300 : ℚ) - 50 = 250 by norm_num]
  rw [show pyInt 250 = 250 by norm_num [pyInt]]
  rw [show pyInt (300 : ℚ) = 300 by norm_num [pyInt]]
  rw [show pyInt (50 : ℚ) = 50 by norm_num [pyInt]]
  rw [show max (0 : ℚ) (250 / 300) * 100 = 250 / 3 by norm_num]
  rw [show ((250 : ℤ) : ℚ) = 250 by norm_num]
  rw [show ((300 : ℤ) : ℚ) = 300 by norm_num]
  rw [show ((50 : ℤ) : ℚ) = 50 by norm_num]
  rfl

/-- C9: against a remote with a $5.00 balance and a quota usage of
`used=50, limit=300`, the Chutes fetch yields exactly two records — a
non-progress credits record displayed `Credits: $5.00`, and one quota
record whose `remaining_pct` is `(300 - 50) / 300 * 100`, within 0.01 of
83.33. -/
theorem marketplace_credit_end_to_end :
    (chutesFetchQuotas c9Env none 0 "r" ⟨some "k", none⟩).1 =
      .ok [chutesBalanceItem 5, c9Quota] ∧
    (chutesBalanceItem 5).display_name = "Credits: $5.00" ∧
    (chutesBalanceItem 5).show_progress = some false ∧
    c9Quota.remaining_pct = (300 - 50) / 300 * 100 ∧
    |c9Quota.remaining_pct - 8333 / 100| < 1 / 100 := by
  refine ⟨?_, ?_, rfl, by norm_num [c9Quota],
    by norm_num [c9Quota, abs_lt]⟩
  · have hb : (chutesFetchBalance c9Env none 0).1 =
        .ok (some (chutesBalanceItem 5)) := rfl
    have hf : (chutesFetchFallback c9Env none 0 "r").1 =
        .ok (buildQuotaResult "*" 300 50 "r") := rfl
    unfold chutesFetchQuotas
    dsimp only
    rw [if_neg (by decide : ¬("k" : String) = ""),
      if_pos (show hasTimeRemaining none 0 = true from rfl), hb, hf]
    dsimp only
    rw [if_neg (by decide : ¬((none : Option String).getD "auto") = "full")]
    rw [if_pos (by decide : ((none : Option String).getD "auto") = "auto")]
    rw [if_neg (show ¬((buildQuotaResult "*" (300 : ℚ) 50 "r").isNone = true ∧
      hasTimeRemaining none 0 = true) by
        rw [c9_buildQuotaResult]; simp)]
    rw [if_pos (show (buildQuotaResult "*" (300 : ℚ) 50 "r").isSome = true by
      rw [c9_buildQuotaResult]; rfl)]
    rw [c9_buildQuotaResult]
    rfl
  · show "Credits: $" ++ formatMoney2 5 = "Credits: $5.00"
    have h1 : roundTiesEven ((5 : ℚ) * 100) = 500 := by
      unfold roundTiesEven
      norm_num
    have h2 : formatMoney2 5 = "5.00" := by
      unfold formatMoney2
      rw [h1]
      rfl
    rw [h2]
    rfl

end LimitWatch
